import Mathlib

/-! Order intake and pricing of the Telegram ordering bot.

A shallow embedding of `src/api/index.js`: the pricing resolver
`getPricingForService`, the comment parser `parseComments`, the free-text
handler `bot.on('text')` and the `back_service` action, followed by the
properties proved about them.

Modelling conventions.
* JavaScript strings are `String`; the text helpers work on `List Char`.
* Quantities and the quantity-like catalog fields (`min_qty`, `max_qty`,
  `unit_size`, `qty_from`, `qty_to`) are `Int`; money (`price_usd`,
  `price_per_unit`, `basePrice`, `totalPrice`, `FIXED_FEE`) is `ℚ`, the exact
  values the IEEE doubles of the source approximate.
* `null`, `undefined` and a missing property are all `none`: the handlers only
  test such values for truthiness or compare them with string constants.
* The Mongo collections are lists in document order; a query is a filter, a
  `findOne` is the first match.
-/

namespace Telegram

/-! ## Text helpers -/

/-- The code points `String.prototype.trim` removes: ECMAScript WhiteSpace and
LineTerminator. -/
def isJsWhiteSpace (c : Char) : Bool :=
  let n := c.toNat
  n == 0x09 || n == 0x0A || n == 0x0B || n == 0x0C || n == 0x0D || n == 0x20 ||
  n == 0xA0 || n == 0x1680 || (0x2000 ≤ n && n ≤ 0x200A) || n == 0x2028 ||
  n == 0x2029 || n == 0x202F || n == 0x205F || n == 0x3000 || n == 0xFEFF

/-- The characters of `s.trim()`. -/
def trimChars (cs : List Char) : List Char :=
  ((cs.dropWhile isJsWhiteSpace).reverse.dropWhile isJsWhiteSpace).reverse

/-- JavaScript `s.trim()`. -/
def trim (s : String) : String := String.mk (trimChars s.data)

/-- The characters of `s.replace(/^@/, '')`: one leading at-sign is removed. -/
def stripAtChars : List Char → List Char
  | '@' :: rest => rest
  | cs => cs

/-- JavaScript `s.replace(/^@/, '')`. -/
def stripAt (s : String) : String := String.mk (stripAtChars s.data)

/-- The pieces of `s.split(',')`, as character lists: the text is cut at every
comma, and a text without a comma is one piece. -/
def splitComma : List Char → List (List Char)
  | [] => [[]]
  | c :: cs =>
    if c = ',' then [] :: splitComma cs
    else
      match splitComma cs with
      | [] => [[c]]
      | piece :: pieces => (c :: piece) :: pieces

/-- Source: `parseComments(rawText)`, that is
`rawText.split(',').map(c => c.trim()).filter(Boolean)`. -/
def parseComments (rawText : String) : List String :=
  ((splitComma rawText.data).map fun c => String.mk (trimChars c)).filter fun c => c ≠ ""

/-- The value of a run of decimal digits. -/
def digitsValue (ds : List Char) : Nat :=
  ds.foldl (fun acc c => 10 * acc + (c.toNat - 48)) 0

/-- JavaScript `parseInt(s, 10)`: leading white space is skipped, one sign is
read, then the longest run of decimal digits; `none` is `NaN` (no digit). -/
def parseInt (s : String) : Option Int :=
  let body := s.data.dropWhile isJsWhiteSpace
  let signed : Bool × List Char :=
    match body with
    | '-' :: rest => (true, rest)
    | '+' :: rest => (false, rest)
    | _ => (false, body)
  let ds := signed.2.takeWhile Char.isDigit
  if ds.isEmpty then none
  else if signed.1 then some (-(digitsValue ds : Int))
  else some (digitsValue ds : Int)

/-- JavaScript truthiness of a value that is a string, `null` or `undefined`. -/
def truthy : Option String → Bool
  | some s => s ≠ ""
  | none => false

/-! ## Catalog documents -/

/-- A document of the `Service` collection. -/
structure Service where
  _id : String
  platform : String
  type : String
  display_name : String
  min_qty : Int
  max_qty : Int
  pricing_mode : String
  description : String
deriving DecidableEq

/-- A document of the `Pricing` collection. -/
structure Pricing where
  service_id : String
  mode : String
  unit_size : Int
  price_usd : ℚ
  qty_from : Int
  qty_to : Int
  price_per_unit : ℚ
deriving DecidableEq

/-- Source: `const FIXED_FEE = 0.5`. -/
def FIXED_FEE : ℚ := 1 / 2

/-! ## Pricing resolver -/

/-- The three ways `getPricingForService` throws. -/
inductive PricingError where
  | NoPricingConfigured
  | NoTierForQuantity
  | UnknownMode
deriving DecidableEq

deriving instance DecidableEq for Except

/-- The message of the thrown `Error`. -/
def PricingError.message : PricingError → String
  | .NoPricingConfigured => "Flat pricing not set."
  | .NoTierForQuantity => "No pricing tier found for this quantity."
  | .UnknownMode => "Unknown pricing mode."

/-- The query `Pricing.find({ service_id, mode: 'flat' }).sort('unit_size')`:
the flat rules of the service, ascending by `unit_size` (stable). -/
def flatPricing (db : List Pricing) (service : Service) : List Pricing :=
  (db.filter fun p => p.service_id = service._id ∧ p.mode = "flat").insertionSort
    fun a b => a.unit_size ≤ b.unit_size

/-- The query `Pricing.findOne({ service_id, mode: 'tiered', qty_from: { $lte:
quantity }, qty_to: { $gte: quantity } })`. -/
def tierFor (db : List Pricing) (service : Service) (quantity : Int) : Option Pricing :=
  db.find? fun p =>
    p.service_id = service._id ∧ p.mode = "tiered" ∧ p.qty_from ≤ quantity ∧ quantity ≤ p.qty_to

/-- Source: `getPricingForService(service, quantity)`, over the `Pricing`
collection `db`. -/
def getPricingForService (db : List Pricing) (service : Service) (quantity : Int) :
    Except PricingError ℚ :=
  if service.pricing_mode = "flat" then
    match flatPricing db service with
    | [] => .error .NoPricingConfigured
    | first :: more =>
      let pricing := first :: more
      let chosen :=
        match pricing.find? fun p => quantity ≤ p.unit_size with
        | some p => p
        | none => pricing.getLast (List.cons_ne_nil first more)
      .ok (((⌈(quantity : ℚ) / (chosen.unit_size : ℚ)⌉ : Int) : ℚ) * chosen.price_usd)
  else if service.pricing_mode = "tiered" then
    match tierFor db service quantity with
    | none => .error .NoTierForQuantity
    | some tier => .ok ((quantity : ℚ) * tier.price_per_unit)
  else .error .UnknownMode

/-! ## Session -/

/-- The object stored in `ctx.session.pending`. -/
structure Draft where
  serviceId : String
  platform : String
  serviceType : String
  service_display_name : String
  targetUsername : String
  comments : Option (List String)
  quantity : Int
  basePrice : ℚ
  totalPrice : ℚ
  internalOrderId : String
deriving DecidableEq

/-- The object `ctx.session`. -/
structure Session where
  platform : Option String
  serviceType : Option String
  serviceId : Option String
  targetUsername : Option String
  pending : Option Draft
  service : Option Service
  editField : Option String
deriving DecidableEq

/-- What a handler sends back. -/
inductive Reply where
  /-- Reply `Invalid username. Please try again.`, with the target of the Back button. -/
  | invalidUsername (back : String)
  /-- Reply `Internal error: service missing.` -/
  | serviceMissing
  /-- Reply `Enter a number between min_qty and max_qty.` -/
  | enterNumber (min_qty max_qty : Int) (back : String)
  /-- Reply `Enter at least min_qty, at most max_qty comments.` -/
  | enterComments (min_qty max_qty : Int) (back : String)
  /-- Reply `Error: ` followed by the message of the pricing error. -/
  | pricingError (message : String)
  /-- The prompt for the comment list. -/
  | askComments
  /-- The prompt for the quantity. -/
  | askQuantity
  /-- The summary `showOrderSummary(ctx)` renders for the given draft. -/
  | orderSummary (p : Draft)
  /-- The call `next()`: the text is left to the next middleware. -/
  | next
  /-- The handler returns without a reply. -/
  | silent
deriving DecidableEq

/-- A reply that reports a validation failure of the text. -/
def Reply.isValidationError : Reply → Bool
  | .invalidUsername _ => true
  | .enterNumber _ _ _ => true
  | .enterComments _ _ _ => true
  | _ => false

/-- A reply that reports a failure of the pricing resolver. -/
def Reply.isPricingError : Reply → Bool
  | .pricingError _ => true
  | _ => false

/-- The edit flow of `bot.on('text')` (lines 205-254), entered with the draft
`p = ctx.session.pending` when `ctx.session.editField` is truthy. -/
def editFlow (db : List Pricing) (s : Session) (p : Draft) (text : String) : Session × Reply :=
  if s.editField = some "username" then
    let username := stripAt (trim text)
    if username = "" then (s, .invalidUsername "back_order_summary")
    else
      let p1 := { p with targetUsername := username }
      ({ s with pending := some p1, targetUsername := some username, editField := none },
        .orderSummary p1)
  else if s.editField = some "quantity" then
    match s.service with
    | none => (s, .serviceMissing)
    | some service =>
      match parseInt (trim text) with
      | none => (s, .enterNumber service.min_qty service.max_qty "back_order_summary")
      | some quantity =>
        if quantity < service.min_qty ∨ quantity > service.max_qty then
          (s, .enterNumber service.min_qty service.max_qty "back_order_summary")
        else
          let p1 := { p with quantity := quantity }
          match getPricingForService db service quantity with
          | .error e => ({ s with pending := some p1 }, .pricingError e.message)
          | .ok basePrice =>
            let p2 := { p1 with basePrice := basePrice, totalPrice := basePrice + FIXED_FEE }
            ({ s with pending := some p2, editField := none }, .orderSummary p2)
  else if s.editField = some "comments" then
    match s.service with
    | none => (s, .serviceMissing)
    | some service =>
      let comments := parseComments text
      if comments.length = 0 ∨ (comments.length : Int) < service.min_qty
          ∨ (comments.length : Int) > service.max_qty then
        (s, .enterComments service.min_qty service.max_qty "back_order_summary")
      else
        let p1 := { p with comments := some comments, quantity := (comments.length : Int) }
        match getPricingForService db service (comments.length : Int) with
        | .error e => ({ s with pending := some p1 }, .pricingError e.message)
        | .ok basePrice =>
          let p2 := { p1 with basePrice := basePrice, totalPrice := basePrice + FIXED_FEE }
          ({ s with pending := some p2, editField := none }, .orderSummary p2)
  else (s, .silent)

/-- The draft built by the main flow (lines 285-296 and 311-321). -/
def newDraft (platform serviceType serviceId targetUsername : String) (service : Service)
    (comments : Option (List String)) (quantity : Int) (basePrice : ℚ)
    (fromId now : String) : Draft :=
  { serviceId := serviceId
    platform := platform
    serviceType := serviceType
    service_display_name := service.display_name
    targetUsername := targetUsername
    comments := comments
    quantity := quantity
    basePrice := basePrice
    totalPrice := basePrice + FIXED_FEE
    internalOrderId := "tg_" ++ fromId ++ "_" ++ now }

/-- The main flow of `bot.on('text')` (lines 257-323). -/
def mainFlow (db : List Pricing) (s : Session) (text fromId now : String) : Session × Reply :=
  match s.platform, s.serviceType, s.serviceId, s.service with
  | some platform, some serviceType, some serviceId, some service =>
    if platform = "" ∨ serviceType = "" ∨ serviceId = "" then (s, .next)
    else
      match (if truthy s.targetUsername then s.targetUsername else none) with
      | none =>
        let username := stripAt (trim text)
        if username = "" then (s, .invalidUsername "back_service")
        else
          ({ s with targetUsername := some username },
            if serviceType = "comment" then .askComments else .askQuantity)
      | some targetUsername =>
        if serviceType = "comment" ∧ (s.pending.bind fun p => p.comments) = none then
          let comments := parseComments text
          if comments.length = 0 ∨ (comments.length : Int) < service.min_qty
              ∨ (comments.length : Int) > service.max_qty then
            (s, .enterComments service.min_qty service.max_qty "back_service")
          else
            match getPricingForService db service (comments.length : Int) with
            | .error e => (s, .pricingError e.message)
            | .ok basePrice =>
              let p := newDraft platform serviceType serviceId targetUsername service
                (some comments) (comments.length : Int) basePrice fromId now
              ({ s with pending := some p }, .orderSummary p)
        else if s.pending = none then
          match parseInt (trim text) with
          | none => (s, .enterNumber service.min_qty service.max_qty "back_service")
          | some quantity =>
            if quantity < service.min_qty ∨ quantity > service.max_qty then
              (s, .enterNumber service.min_qty service.max_qty "back_service")
            else
              match getPricingForService db service quantity with
              | .error e => (s, .pricingError e.message)
              | .ok basePrice =>
                let p := newDraft platform serviceType serviceId targetUsername service
                  none quantity basePrice fromId now
                ({ s with pending := some p }, .orderSummary p)
        else (s, .silent)
  | _, _, _, _ => (s, .next)

/-- Source: `bot.on('text', ...)`. `text` is `ctx.message.text`; `fromId` and
`now` are the decimal renderings of `ctx.from.id` and `Date.now()`. -/
def onText (db : List Pricing) (s : Session) (text fromId now : String) : Session × Reply :=
  match (if truthy s.editField then s.pending else none) with
  | some p => editFlow db s p text
  | none => mainFlow db s text fromId now

/-- Source: `bot.action('back_service', ...)`, the session it leaves. -/
def back_service (s : Session) : Session :=
  { s with serviceType := none, serviceId := none, targetUsername := none,
           pending := none, service := none }

/-! ## Sample data -/

/-- The followers service of the seed: quantities 10 to 10000, flat pricing. -/
def followers : Service :=
  { _id := "s1", platform := "instagram", type := "follower", display_name := "Followers",
    min_qty := 10, max_qty := 10000, pricing_mode := "flat",
    description := "Instagram High quality followers" }

/-- The comments service of the seed: 1 to 500 comments, flat pricing. -/
def commentsService : Service :=
  { _id := "s2", platform := "instagram", type := "comment", display_name := "Comments",
    min_qty := 1, max_qty := 500, pricing_mode := "flat",
    description := "Instagram Custom user comments" }

/-- A tiered service. -/
def tieredViews : Service :=
  { _id := "s3", platform := "youtube", type := "view", display_name := "Views",
    min_qty := 1, max_qty := 9999, pricing_mode := "tiered", description := "Youtube Real views" }

/-- A flat rule. -/
def flatRule (service_id : String) (unit_size : Int) (price_usd : ℚ) : Pricing :=
  { service_id := service_id, mode := "flat", unit_size := unit_size, price_usd := price_usd,
    qty_from := 0, qty_to := 0, price_per_unit := 0 }

/-- A tiered rule. -/
def tierRule (service_id : String) (qty_from qty_to : Int) (price_per_unit : ℚ) : Pricing :=
  { service_id := service_id, mode := "tiered", unit_size := 0, price_usd := 0,
    qty_from := qty_from, qty_to := qty_to, price_per_unit := price_per_unit }

/-- The pricing collection of the examples. -/
def sampleDb : List Pricing :=
  [flatRule "s1" 100 3, flatRule "s2" 100 10, tierRule "s3" 1 99 (5 / 100),
    tierRule "s3" 100 9999 (3 / 100)]

/-- A session waiting for the quantity or the comments of `service`. -/
def awaiting (service : Service) : Session :=
  { platform := some service.platform, serviceType := some service.type,
    serviceId := some service._id, targetUsername := some "bob", pending := none,
    service := some service, editField := none }

/-- The two tiered rules of the worked example. -/
def tieredDb : List Pricing :=
  [tierRule "s3" 1 99 (5 / 100), tierRule "s3" 100 9999 (3 / 100)]

/-- The rule of `db` is a tiered rule of `service` whose inclusive range holds `q`. -/
def tierMatches (service : Service) (q : Int) (r : Pricing) : Prop :=
  r.service_id = service._id ∧ r.mode = "tiered" ∧ r.qty_from ≤ q ∧ q ≤ r.qty_to

/-- A comment service whose catalog entry allows zero comments. -/
def commentsFromZero : Service :=
  { _id := "s2", platform := "instagram", type := "comment", display_name := "Comments",
    min_qty := 0, max_qty := 500, pricing_mode := "flat",
    description := "Instagram Custom user comments" }

/-- A pricing collection whose only tier for the views service stops at 99,
below the service's `max_qty`. -/
def gapDb : List Pricing := [tierRule "s3" 1 99 (5 / 100)]

/-- A draft of 50 views, priced by `gapDb`: base price 2.5, total 3. -/
def viewsDraft : Draft :=
  { serviceId := "s3", platform := "youtube", serviceType := "view",
    service_display_name := "Views", targetUsername := "bob", comments := none,
    quantity := 50, basePrice := 5 / 2, totalPrice := 3, internalOrderId := "tg_7_1" }

/-- The session holding the draft `p` for `service`, with `field` being edited. -/
def editing (service : Service) (p : Draft) (field : String) : Session :=
  { platform := some service.platform, serviceType := some service.type,
    serviceId := some service._id, targetUsername := some p.targetUsername,
    pending := some p, service := some service, editField := some field }

/-- A draft of 100 followers, priced by `sampleDb`: base price 3, total 3.5. -/
def followersDraft : Draft :=
  { serviceId := "s1", platform := "instagram", serviceType := "follower",
    service_display_name := "Followers", targetUsername := "bob", comments := none,
    quantity := 100, basePrice := 3, totalPrice := 7 / 2, internalOrderId := "tg_7_1" }

/-! ## Rule selection -/

/-- The rule the flat branch charges by: the first with `quantity ≤ unit_size`,
else the last. -/
def chosenRule (first : Pricing) (more : List Pricing) (quantity : Int) : Pricing :=
  match (first :: more).find? fun p => quantity ≤ p.unit_size with
  | some p => p
  | none => (first :: more).getLast (List.cons_ne_nil first more)

/-- The rule `getPricingForService` charges a flat service by at `quantity`
(the variable `chosen`), when the service has a flat rule. -/
def selectedRule (db : List Pricing) (service : Service) (quantity : Int) : Option Pricing :=
  match flatPricing db service with
  | [] => none
  | first :: more => some (chosenRule first more quantity)

/-! ## The other handlers and the event loop -/

/-- The session `bot.start` leaves: `ctx.session = {}`. -/
def emptySession : Session :=
  { platform := none, serviceType := none, serviceId := none, targetUsername := none,
    pending := none, service := none, editField := none }

/-- Source: `bot.start(...)`, the session it leaves. -/
def start (_s : Session) : Session := emptySession

/-- Source: `bot.action(/platform_(.+)/, ...)`, the session it leaves;
`platform` is `ctx.match[1]`. -/
def platform_select (s : Session) (platform : String) : Session :=
  { s with platform := some platform, serviceType := none, serviceId := none,
           targetUsername := none, pending := none, service := none }

/-- Source: `bot.action('back_platforms', ...)`, the session it leaves. -/
def back_platforms (s : Session) : Session :=
  { s with platform := none, serviceType := none, serviceId := none,
           targetUsername := none, pending := none, service := none }

/-- Source: `getServiceById(id)`, that is `Service.findById(id)`, over the
`Service` collection. -/
def getServiceById (services : List Service) (id : String) : Option Service :=
  services.find? fun service => service._id = id

/-- Source: `bot.action(/service_(.+)/, ...)`, the session it leaves;
`serviceId` is `ctx.match[1]`. -/
def service_select (services : List Service) (s : Session) (serviceId : String) : Session :=
  match getServiceById services serviceId with
  | none => s
  | some service =>
    { s with serviceType := some service.type, serviceId := some serviceId,
             targetUsername := none, pending := none, service := some service }

/-- Source: `bot.action('back_order_summary', ...)`, the session it leaves. -/
def back_order_summary (s : Session) : Session := { s with editField := none }

/-- Source: `bot.action('edit_username', ...)`, the session it leaves. -/
def edit_username (s : Session) : Session := { s with editField := some "username" }

/-- Source: `bot.action('edit_quantity', ...)`, the session it leaves. -/
def edit_quantity (s : Session) : Session := { s with editField := some "quantity" }

/-- Source: `bot.action('edit_comments', ...)`, the session it leaves. -/
def edit_comments (s : Session) : Session := { s with editField := some "comments" }

/-- Source: `bot.action('cancel_order', ...)`, the session it leaves. -/
def cancel_order (s : Session) : Session := { s with pending := none }

/-- The inbound events of the order flow. A callback whose pattern needs a
capture (`platform_(.+)`, `service_(.+)`) carries the captured text. -/
inductive Event where
  | start
  | selectPlatform (platform : String)
  | backPlatforms
  | selectService (serviceId : String)
  | backService
  | backOrderSummary
  | editUsername
  | editQuantity
  | editComments
  | cancelOrder
  | text (text fromId now : String)

/-- One event handled on a session. A callback with an empty capture matches no
handler and leaves the session as it is. -/
def step (services : List Service) (db : List Pricing) (s : Session) : Event → Session
  | .start => start s
  | .selectPlatform platform => if platform = "" then s else platform_select s platform
  | .backPlatforms => back_platforms s
  | .selectService serviceId => if serviceId = "" then s else service_select services s serviceId
  | .backService => back_service s
  | .backOrderSummary => back_order_summary s
  | .editUsername => edit_username s
  | .editQuantity => edit_quantity s
  | .editComments => edit_comments s
  | .cancelOrder => cancel_order s
  | .text text fromId now => (onText db s text fromId now).1

/-- The session after a sequence of events, handled one after the other. -/
def run (services : List Service) (db : List Pricing) (s : Session) (events : List Event) :
    Session :=
  events.foldl (step services db) s

/-- The sessions a conversation can be in: those some sequence of events
produces from the empty session. -/
def Reachable (services : List Service) (db : List Pricing) (s : Session) : Prop :=
  ∃ events, run services db emptySession events = s

/-- The `Service` collection of the examples. -/
def sampleServices : List Service := [followers, commentsService, tieredViews]

/-- The events of an order of 250 followers for `bob`, up to the summary. -/
def followersOrder : List Event :=
  [.start, .selectPlatform "instagram", .selectService "s1", .text "bob" "7" "1",
    .text "250" "7" "2"]

/-- The events of an order of three comments for `bob`, up to the summary. -/
def commentsOrder : List Event :=
  [.start, .selectPlatform "instagram", .selectService "s2", .text "bob" "7" "1",
    .text "Nice!, Cool!, Wow!" "7" "2"]

/-- The draft of the session, if any, has its total equal to its base price
plus the fixed fee. -/
def PricesTogether (s : Session) : Prop :=
  ∀ p, s.pending = some p → p.totalPrice = p.basePrice + FIXED_FEE

/-- The selected service, if any, is the one the session's service id and type
name; and the draft, if any, sits in a session with a service selected and
carries the session's service id, service type and platform. -/
def DraftMatchesSelection (s : Session) : Prop :=
  (∀ service, s.service = some service →
      s.serviceId = some service._id ∧ s.serviceType = some service.type)
  ∧ ∀ p, s.pending = some p →
      (∃ service, s.service = some service) ∧ s.serviceId = some p.serviceId
        ∧ s.serviceType = some p.serviceType ∧ s.platform = some p.platform

/-- The characters of `pieces.join(',')`: the pieces with a comma between
neighbours. -/
def joinComma : List (List Char) → List Char
  | [] => []
  | [piece] => piece
  | piece :: next :: rest => piece ++ ',' :: joinComma (next :: rest)

/-! ## Retry -/

/-- The loop of `retryWithBackoff(fn, retries, baseDelay)`, with `fn i` the
outcome of the invocation of `fn` that follows `i` earlier ones, started with
`attempt` failures counted. The result is what the loop returns or throws,
with the number of invocations of `fn` made so far; `none` is a loop still
running after `fuel` iterations. The waits between the iterations are not
modelled. -/
def retryLoop {ε α : Type} (fn : Nat → Except ε α) (retries : Nat) :
    Nat → Nat → Option (Except ε α × Nat)
  | 0, _ => none
  | fuel + 1, attempt =>
    match fn attempt with
    | .ok value => some (.ok value, attempt + 1)
    | .error err =>
      if attempt + 1 > retries then some (.error err, attempt + 1)
      else retryLoop fn retries fuel (attempt + 1)

/-- Source: `retryWithBackoff(fn, retries, baseDelay)`: the loop entered with
`attempt = 0`, run for at most `fuel` iterations. -/
def retryWithBackoff {ε α : Type} (fn : Nat → Except ε α) (retries fuel : Nat) :
    Option (Except ε α × Nat) :=
  retryLoop fn retries fuel 0

/-- An operation that fails twice and then succeeds. -/
def flaky : Nat → Except String Nat
  | 0 => .error "timeout"
  | 1 => .error "reset"
  | _ => .ok 42

/-- An order of 250 followers on which Edit Quantity is pressed, left by the
Back button to the service list, followed by a second order of 250 followers
for `bob`, up to its summary. -/
def reorderAfterEdit : List Event :=
  followersOrder ++
    [.editQuantity, .backService, .selectService "s1", .text "bob" "7" "3",
      .text "250" "7" "4"]

/-! ## Pricing resolver: lemmas -/

theorem getPricing_flat_nil (db : List Pricing) (service : Service) (q : Int)
    (hmode : service.pricing_mode = "flat") (h : flatPricing db service = []) :
    getPricingForService db service q = .error .NoPricingConfigured := by
  unfold getPricingForService
  rw [if_pos hmode, h]

theorem getPricing_flat_cons (db : List Pricing) (service : Service) (q : Int)
    (first : Pricing) (more : List Pricing)
    (hmode : service.pricing_mode = "flat") (h : flatPricing db service = first :: more) :
    getPricingForService db service q =
      .ok (((⌈(q : ℚ) / ((chosenRule first more q).unit_size : ℚ)⌉ : Int) : ℚ)
        * (chosenRule first more q).price_usd) := by
  unfold getPricingForService
  rw [if_pos hmode, h]
  rfl

theorem getPricing_tiered (db : List Pricing) (service : Service) (q : Int)
    (hmode : service.pricing_mode = "tiered") :
    getPricingForService db service q =
      match tierFor db service q with
      | none => .error .NoTierForQuantity
      | some tier => .ok ((q : ℚ) * tier.price_per_unit) := by
  have hflat : service.pricing_mode ≠ "flat" := by rw [hmode]; decide
  unfold getPricingForService
  rw [if_neg hflat, if_pos hmode]

theorem getPricing_unknown (db : List Pricing) (service : Service) (q : Int)
    (hflat : service.pricing_mode ≠ "flat") (htier : service.pricing_mode ≠ "tiered") :
    getPricingForService db service q = .error .UnknownMode := by
  unfold getPricingForService
  rw [if_neg hflat, if_neg htier]

/-- Where the chosen rule stands in the sorted list. -/
theorem chosenRule_position (first : Pricing) (more : List Pricing) (q : Int) :
    ∃ before after, first :: more = before ++ chosenRule first more q :: after
      ∧ (∀ x ∈ before, x.unit_size < q)
      ∧ (q ≤ (chosenRule first more q).unit_size
          ∨ (after = [] ∧ (chosenRule first more q).unit_size < q)) := by
  unfold chosenRule
  cases hf : (first :: more).find? fun p => decide (q ≤ p.unit_size) with
  | some r =>
    obtain ⟨hr, before, after, hsplit, hbefore⟩ := List.find?_eq_some.mp hf
    refine ⟨before, after, hsplit, ?_, Or.inl (by simpa using hr)⟩
    intro x hx
    have := hbefore x hx
    simpa using this
  | none =>
    have hall := List.find?_eq_none.mp hf
    have hne : first :: more ≠ [] := List.cons_ne_nil first more
    refine ⟨(first :: more).dropLast, [], ?_, ?_, Or.inr ⟨rfl, ?_⟩⟩
    · exact (List.dropLast_append_getLast hne).symm
    · intro x hx
      have := hall x (List.mem_of_mem_dropLast hx)
      simpa using this
    · have := hall _ (List.getLast_mem hne)
      simpa using this

/-- The integer characterisation of `Math.ceil(q / u)` for a positive `u`. -/
theorem ceil_div_spec (q u : Int) (hu : 0 < u) :
    (⌈(q : ℚ) / (u : ℚ)⌉ - 1) * u < q ∧ q ≤ ⌈(q : ℚ) / (u : ℚ)⌉ * u := by
  have hu' : (0 : ℚ) < (u : ℚ) := by exact_mod_cast hu
  have h := (Int.ceil_eq_iff (z := ⌈(q : ℚ) / (u : ℚ)⌉) (a := (q : ℚ) / (u : ℚ))).mp rfl
  constructor
  · have h1 := (lt_div_iff₀ hu').mp h.1
    exact_mod_cast h1
  · have h2 := (div_le_iff₀ hu').mp h.2
    exact_mod_cast h2

theorem flatPricing_sorted (db : List Pricing) (service : Service) :
    List.Sorted (fun a b : Pricing => a.unit_size ≤ b.unit_size) (flatPricing db service) := by
  unfold flatPricing
  haveI : IsTotal Pricing (fun a b : Pricing => a.unit_size ≤ b.unit_size) :=
    ⟨fun a b => le_total a.unit_size b.unit_size⟩
  haveI : IsTrans Pricing (fun a b : Pricing => a.unit_size ≤ b.unit_size) :=
    ⟨fun a b c hab hbc => le_trans hab hbc⟩
  exact List.sorted_insertionSort _ _

theorem flatPricing_perm (db : List Pricing) (service : Service) :
    (flatPricing db service).Perm
      (db.filter fun p => p.service_id = service._id ∧ p.mode = "flat") := by
  unfold flatPricing
  exact List.perm_insertionSort _ _

theorem flatPricing_eq_nil_iff (db : List Pricing) (service : Service) :
    flatPricing db service = [] ↔
      ∀ r ∈ db, ¬ (r.service_id = service._id ∧ r.mode = "flat") := by
  constructor
  · intro h r hr hm
    have hmem : r ∈ db.filter fun p => p.service_id = service._id ∧ p.mode = "flat" := by
      simp [List.mem_filter, hr, hm]
    have := (flatPricing_perm db service).mem_iff.mpr hmem
    rw [h] at this
    simp at this
  · intro h
    have hnil : (db.filter fun p => decide (p.service_id = service._id ∧ p.mode = "flat")) = [] := by
      rw [List.filter_eq_nil_iff]
      intro r hr
      simpa using h r hr
    have := (flatPricing_perm db service)
    rw [hnil] at this
    exact List.Perm.eq_nil this

theorem tierFor_eq_none_iff (db : List Pricing) (service : Service) (q : Int) :
    tierFor db service q = none ↔ ∀ r ∈ db, ¬ tierMatches service q r := by
  unfold tierFor tierMatches
  rw [List.find?_eq_none]
  constructor
  · intro h r hr hm
    exact h r hr (by simpa using hm)
  · intro h r hr hm
    exact h r hr (by simpa using hm)

theorem tierFor_some (db : List Pricing) (service : Service) (q : Int) (r : Pricing)
    (h : tierFor db service q = some r) : r ∈ db ∧ tierMatches service q r := by
  unfold tierFor at h
  refine ⟨List.mem_of_find?_eq_some h, ?_⟩
  have := List.find?_some h
  unfold tierMatches
  simpa using this

/-! ## Pricing resolver: the claims -/

/-- C1: for a flat-mode service whose flat rules, sorted ascending by
`unit_size`, are non-empty with positive unit sizes, `getPricingForService`
returns `ceil(q / u) * p` for the rule `(u, p)` that is the first of the sorted
list with `unit_size ≥ q`, or its last rule (of largest `unit_size`) when no
rule has `unit_size ≥ q`. The sorted list is an ascending rearrangement of the
service's flat rules, and `ceil(q / u)` is the integer `k` with
`(k - 1) * u < q ≤ k * u`. -/
theorem C1_flat_price (db : List Pricing) (service : Service) (q : Int)
    (hmode : service.pricing_mode = "flat")
    (hne : flatPricing db service ≠ [])
    (hpos : ∀ r ∈ flatPricing db service, 0 < r.unit_size) :
    List.Sorted (fun a b : Pricing => a.unit_size ≤ b.unit_size) (flatPricing db service)
    ∧ (flatPricing db service).Perm
        (db.filter fun p => p.service_id = service._id ∧ p.mode = "flat")
    ∧ ∃ before r after,
        flatPricing db service = before ++ r :: after
        ∧ (∀ x ∈ before, x.unit_size < q)
        ∧ (q ≤ r.unit_size
            ∨ (after = [] ∧ ∀ x ∈ flatPricing db service,
                x.unit_size < q ∧ x.unit_size ≤ r.unit_size))
        ∧ getPricingForService db service q =
            .ok (((⌈(q : ℚ) / (r.unit_size : ℚ)⌉ : Int) : ℚ) * r.price_usd)
        ∧ (⌈(q : ℚ) / (r.unit_size : ℚ)⌉ - 1) * r.unit_size < q
        ∧ q ≤ ⌈(q : ℚ) / (r.unit_size : ℚ)⌉ * r.unit_size := by
  refine ⟨flatPricing_sorted db service, flatPricing_perm db service, ?_⟩
  cases h : flatPricing db service with
  | nil => exact absurd h hne
  | cons first more =>
    obtain ⟨before, after, hsplit, hbefore, hcase⟩ := chosenRule_position first more q
    have hsorted := flatPricing_sorted db service
    rw [h, hsplit] at hsorted
    have hmem : chosenRule first more q ∈ flatPricing db service := by
      rw [h, hsplit]; simp
    have hceil := ceil_div_spec q _ (hpos _ hmem)
    refine ⟨before, chosenRule first more q, after, hsplit, hbefore, ?_,
      getPricing_flat_cons db service q first more hmode h, hceil.1, hceil.2⟩
    rcases hcase with hle | ⟨hafter, hlt⟩
    · exact Or.inl hle
    · refine Or.inr ⟨hafter, ?_⟩
      intro x hx
      rw [hsplit, hafter] at hx
      rcases List.mem_append.mp hx with hx | hx
      · refine ⟨hbefore x hx, ?_⟩
        have hp := List.pairwise_append.mp hsorted
        exact hp.2.2 x hx _ (List.mem_cons_self _ _)
      · have hx' : x = chosenRule first more q := by simpa using hx
        rw [hx']
        exact ⟨hlt, le_refl _⟩

/-- C1 at the seed's followers service and quantity 250. -/
theorem C1_flat_price_witness :
    ∃ before r after,
        flatPricing sampleDb followers = before ++ r :: after
        ∧ (∀ x ∈ before, x.unit_size < 250)
        ∧ (250 ≤ r.unit_size
            ∨ (after = [] ∧ ∀ x ∈ flatPricing sampleDb followers,
                x.unit_size < 250 ∧ x.unit_size ≤ r.unit_size))
        ∧ getPricingForService sampleDb followers 250 =
            .ok (((⌈((250 : Int) : ℚ) / (r.unit_size : ℚ)⌉ : Int) : ℚ) * r.price_usd)
        ∧ (⌈((250 : Int) : ℚ) / (r.unit_size : ℚ)⌉ - 1) * r.unit_size < 250
        ∧ 250 ≤ ⌈((250 : Int) : ℚ) / (r.unit_size : ℚ)⌉ * r.unit_size :=
  (C1_flat_price sampleDb followers 250 (by decide) (by decide) (by decide)).2.2

/-- C2: for a tiered-mode service and a quantity `q` that some tiered rule's
inclusive range `[qty_from, qty_to]` contains, `getPricingForService` returns
exactly `q * price_per_unit` of the matching rule the query finds (the first in
document order), which is the price of any matching rule `r` once all matching
rules agree on `price_per_unit`, in particular when `r` is the only one; for
the rules 1..99 at 0.05 and 100..9999 at 0.03 and quantity 150 it is 4.5. -/
theorem C2_tiered_price (db : List Pricing) (service : Service) (q : Int)
    (hmode : service.pricing_mode = "tiered")
    (hex : ∃ r ∈ db, tierMatches service q r) :
    (∃ r ∈ db, tierMatches service q r ∧ tierFor db service q = some r
        ∧ getPricingForService db service q = .ok ((q : ℚ) * r.price_per_unit))
    ∧ (∀ r ∈ db, tierMatches service q r →
        (∀ r2 ∈ db, tierMatches service q r2 → r2.price_per_unit = r.price_per_unit) →
        getPricingForService db service q = .ok ((q : ℚ) * r.price_per_unit))
    ∧ getPricingForService tieredDb tieredViews 150 = .ok (9 / 2) := by
  have hsome : ∃ r, tierFor db service q = some r := by
    cases hf : tierFor db service q with
    | some r => exact ⟨r, rfl⟩
    | none =>
      obtain ⟨r, hr, hm⟩ := hex
      exact absurd hm ((tierFor_eq_none_iff db service q).mp hf r hr)
  obtain ⟨r0, hr0⟩ := hsome
  have hprice : getPricingForService db service q = .ok ((q : ℚ) * r0.price_per_unit) := by
    rw [getPricing_tiered db service q hmode, hr0]
  obtain ⟨hmem0, hmatch0⟩ := tierFor_some db service q r0 hr0
  refine ⟨⟨r0, hmem0, hmatch0, hr0, hprice⟩, ?_, by decide!⟩
  intro r _ _ hall
  rw [hprice, hall r0 hmem0 hmatch0]

/-- C2 at the worked example: quantity 150 falls in the tier 100..9999. -/
theorem C2_tiered_price_witness :
    ∃ r ∈ sampleDb, tierMatches tieredViews 150 r ∧ tierFor sampleDb tieredViews 150 = some r
        ∧ getPricingForService sampleDb tieredViews 150
            = .ok (((150 : Int) : ℚ) * r.price_per_unit) :=
  (C2_tiered_price sampleDb tieredViews 150 (by decide)
    ⟨tierRule "s3" 100 9999 (3 / 100), by simp [sampleDb], by
      unfold tierMatches; decide⟩).1

/-- C3: `getPricingForService` fails in exactly three cases, each with its own
error: flat mode with no flat rule for the service (`NoPricingConfigured`),
tiered mode with no rule whose inclusive range contains the quantity
(`NoTierForQuantity`), a `pricing_mode` that is neither `flat` nor `tiered`
(`UnknownMode`); in every other case it returns a price. -/
theorem C3_failure_cases (db : List Pricing) (service : Service) (q : Int) :
    (getPricingForService db service q = .error .NoPricingConfigured ↔
      service.pricing_mode = "flat"
        ∧ ∀ r ∈ db, ¬ (r.service_id = service._id ∧ r.mode = "flat"))
    ∧ (getPricingForService db service q = .error .NoTierForQuantity ↔
      service.pricing_mode = "tiered" ∧ ∀ r ∈ db, ¬ tierMatches service q r)
    ∧ (getPricingForService db service q = .error .UnknownMode ↔
      service.pricing_mode ≠ "flat" ∧ service.pricing_mode ≠ "tiered")
    ∧ ((∃ price, getPricingForService db service q = .ok price) ↔
      ¬ ((service.pricing_mode = "flat"
            ∧ ∀ r ∈ db, ¬ (r.service_id = service._id ∧ r.mode = "flat"))
          ∨ (service.pricing_mode = "tiered" ∧ ∀ r ∈ db, ¬ tierMatches service q r)
          ∨ (service.pricing_mode ≠ "flat" ∧ service.pricing_mode ≠ "tiered"))) := by
  have hft : ("flat" : String) ≠ "tiered" := by decide
  by_cases hflat : service.pricing_mode = "flat"
  · have htier : service.pricing_mode ≠ "tiered" := by rw [hflat]; exact hft
    cases h : flatPricing db service with
    | nil =>
      have hnone := (flatPricing_eq_nil_iff db service).mp h
      rw [getPricing_flat_nil db service q hflat h]
      refine ⟨⟨fun _ => ⟨hflat, hnone⟩, fun _ => rfl⟩, ⟨fun he => ?_, fun hc => absurd hc.1 htier⟩,
        ⟨fun he => ?_, fun hc => absurd hflat hc.1⟩,
        ⟨fun he => ?_, fun hn => absurd (Or.inl ⟨hflat, hnone⟩) hn⟩⟩
      · cases he
      · cases he
      · obtain ⟨_, he⟩ := he
        cases he
    | cons first more =>
      have hsome : ¬ ∀ r ∈ db, ¬ (r.service_id = service._id ∧ r.mode = "flat") := by
        intro hall
        have := (flatPricing_eq_nil_iff db service).mpr hall
        rw [h] at this
        exact List.cons_ne_nil _ _ this
      rw [getPricing_flat_cons db service q first more hflat h]
      refine ⟨⟨fun he => ?_, fun hc => absurd hc.2 hsome⟩, ⟨fun he => ?_, fun hc => absurd hc.1 htier⟩,
        ⟨fun he => ?_, fun hc => absurd hflat hc.1⟩, ⟨fun _ => ?_, fun _ => ⟨_, rfl⟩⟩⟩
      · cases he
      · cases he
      · cases he
      · rintro (hc | hc | hc)
        · exact hsome hc.2
        · exact htier hc.1
        · exact hc.1 hflat
  · by_cases htier : service.pricing_mode = "tiered"
    · rw [getPricing_tiered db service q htier]
      cases hf : tierFor db service q with
      | none =>
        have hnone := (tierFor_eq_none_iff db service q).mp hf
        refine ⟨⟨fun he => ?_, fun hc => absurd hc.1 hflat⟩, ⟨fun _ => ⟨htier, hnone⟩, fun _ => rfl⟩,
          ⟨fun he => ?_, fun hc => absurd htier hc.2⟩,
          ⟨fun he => ?_, fun hn => absurd (Or.inr (Or.inl ⟨htier, hnone⟩)) hn⟩⟩
        · cases he
        · cases he
        · obtain ⟨_, he⟩ := he
          cases he
      | some r =>
        obtain ⟨hmem, hmatch⟩ := tierFor_some db service q r hf
        have hsome : ¬ ∀ r ∈ db, ¬ tierMatches service q r := fun hall => hall r hmem hmatch
        refine ⟨⟨fun he => ?_, fun hc => absurd hc.1 hflat⟩, ⟨fun he => ?_, fun hc => absurd hc.2 hsome⟩,
          ⟨fun he => ?_, fun hc => absurd htier hc.2⟩, ⟨fun _ => ?_, fun _ => ⟨_, rfl⟩⟩⟩
        · cases he
        · cases he
        · cases he
        · rintro (hc | hc | hc)
          · exact hflat hc.1
          · exact hsome hc.2
          · exact hc.2 htier
    · rw [getPricing_unknown db service q hflat htier]
      refine ⟨⟨fun he => ?_, fun hc => absurd hc.1 hflat⟩, ⟨fun he => ?_, fun hc => absurd hc.1 htier⟩,
        ⟨fun _ => ⟨hflat, htier⟩, fun _ => rfl⟩,
        ⟨fun he => ?_, fun hn => absurd (Or.inr (Or.inr ⟨hflat, htier⟩)) hn⟩⟩
      · cases he
      · cases he
      · obtain ⟨_, he⟩ := he
        cases he

/-! ## Text handler: lemmas -/

theorem editFlow_validation (db : List Pricing) (s : Session) (p : Draft) (text : String)
    (h : (editFlow db s p text).2.isValidationError = true) : (editFlow db s p text).1 = s := by
  generalize hX : editFlow db s p text = X at h ⊢
  simp only [editFlow] at hX
  repeat' (split at hX)
  all_goals (subst hX; first | rfl | (simp [Reply.isValidationError] at h))

theorem mainFlow_validation (db : List Pricing) (s : Session) (text fromId now : String)
    (h : (mainFlow db s text fromId now).2.isValidationError = true) :
    (mainFlow db s text fromId now).1 = s := by
  generalize hX : mainFlow db s text fromId now = X at h ⊢
  simp only [mainFlow] at hX
  repeat' (split at hX)
  all_goals (subst hX; first | rfl | (simp [Reply.isValidationError] at h))

theorem onText_validation (db : List Pricing) (s : Session) (text fromId now : String)
    (h : (onText db s text fromId now).2.isValidationError = true) :
    (onText db s text fromId now).1 = s := by
  unfold onText at h ⊢
  split
  · rename_i p hp
    rw [hp] at h
    exact editFlow_validation db s p text h
  · rename_i hp
    rw [hp] at h
    exact mainFlow_validation db s text fromId now h

/-- The edit flow is entered when a field is being edited and a draft exists. -/
theorem onText_edit (db : List Pricing) (s : Session) (p : Draft) (field text fromId now : String)
    (hfield : field ≠ "") (hedit : s.editField = some field) (hpend : s.pending = some p) :
    onText db s text fromId now = editFlow db s p text := by
  simp [onText, truthy, hedit, hpend, hfield]

/-- The main flow is entered when there is no draft. -/
theorem onText_main (db : List Pricing) (s : Session) (text fromId now : String)
    (hpend : s.pending = none) :
    onText db s text fromId now = mainFlow db s text fromId now := by
  simp [onText, hpend]

/-- The main flow once platform, service type, service id and service are set. -/
theorem mainFlow_selected (db : List Pricing) (s : Session) (service : Service)
    (platform serviceType serviceId text fromId now : String)
    (hplat : s.platform = some platform) (hplat2 : platform ≠ "")
    (hty : s.serviceType = some serviceType) (hty2 : serviceType ≠ "")
    (hid : s.serviceId = some serviceId) (hid2 : serviceId ≠ "")
    (hsvc : s.service = some service) :
    mainFlow db s text fromId now =
      match (if truthy s.targetUsername then s.targetUsername else none) with
      | none =>
        if stripAt (trim text) = "" then (s, .invalidUsername "back_service")
        else
          ({ s with targetUsername := some (stripAt (trim text)) },
            if serviceType = "comment" then .askComments else .askQuantity)
      | some targetUsername =>
        if serviceType = "comment" ∧ (s.pending.bind fun p => p.comments) = none then
          if (parseComments text).length = 0 ∨ ((parseComments text).length : Int) < service.min_qty
              ∨ ((parseComments text).length : Int) > service.max_qty then
            (s, .enterComments service.min_qty service.max_qty "back_service")
          else
            match getPricingForService db service ((parseComments text).length : Int) with
            | .error e => (s, .pricingError e.message)
            | .ok basePrice =>
              ({ s with pending := some (newDraft platform serviceType serviceId targetUsername
                  service (some (parseComments text)) ((parseComments text).length : Int)
                  basePrice fromId now) },
                .orderSummary (newDraft platform serviceType serviceId targetUsername
                  service (some (parseComments text)) ((parseComments text).length : Int)
                  basePrice fromId now))
        else if s.pending = none then
          match parseInt (trim text) with
          | none => (s, .enterNumber service.min_qty service.max_qty "back_service")
          | some quantity =>
            if quantity < service.min_qty ∨ quantity > service.max_qty then
              (s, .enterNumber service.min_qty service.max_qty "back_service")
            else
              match getPricingForService db service quantity with
              | .error e => (s, .pricingError e.message)
              | .ok basePrice =>
                ({ s with pending := some (newDraft platform serviceType serviceId targetUsername
                    service none quantity basePrice fromId now) },
                  .orderSummary (newDraft platform serviceType serviceId targetUsername
                    service none quantity basePrice fromId now))
        else (s, .silent) := by
  unfold mainFlow
  rw [hplat, hty, hid, hsvc]
  simp only []
  rw [if_neg (by simp [hplat2, hty2, hid2])]

/-- The edit flow on the target. -/
theorem editFlow_username (db : List Pricing) (s : Session) (p : Draft) (text : String)
    (hedit : s.editField = some "username") :
    editFlow db s p text =
      if stripAt (trim text) = "" then (s, .invalidUsername "back_order_summary")
      else
        ({ s with pending := some { p with targetUsername := stripAt (trim text) },
                  targetUsername := some (stripAt (trim text)), editField := none },
          .orderSummary { p with targetUsername := stripAt (trim text) }) := by
  simp only [editFlow]
  rw [if_pos hedit]

/-- The edit flow on the quantity, with the service in the session. -/
theorem editFlow_quantity (db : List Pricing) (s : Session) (p : Draft) (service : Service)
    (text : String) (hedit : s.editField = some "quantity") (hsvc : s.service = some service) :
    editFlow db s p text =
      match parseInt (trim text) with
      | none => (s, .enterNumber service.min_qty service.max_qty "back_order_summary")
      | some quantity =>
        if quantity < service.min_qty ∨ quantity > service.max_qty then
          (s, .enterNumber service.min_qty service.max_qty "back_order_summary")
        else
          match getPricingForService db service quantity with
          | .error e => ({ s with pending := some { p with quantity := quantity } },
              .pricingError e.message)
          | .ok basePrice =>
            ({ s with pending := some { p with quantity := quantity, basePrice := basePrice,
                                               totalPrice := basePrice + FIXED_FEE },
                      editField := none },
              .orderSummary { p with quantity := quantity, basePrice := basePrice,
                                     totalPrice := basePrice + FIXED_FEE }) := by
  simp only [editFlow]
  rw [if_neg (by rw [hedit]; decide), if_pos hedit, hsvc]

/-- The edit flow on the comments, with the service in the session. -/
theorem editFlow_comments (db : List Pricing) (s : Session) (p : Draft) (service : Service)
    (text : String) (hedit : s.editField = some "comments") (hsvc : s.service = some service) :
    editFlow db s p text =
      if (parseComments text).length = 0 ∨ ((parseComments text).length : Int) < service.min_qty
          ∨ ((parseComments text).length : Int) > service.max_qty then
        (s, .enterComments service.min_qty service.max_qty "back_order_summary")
      else
        match getPricingForService db service ((parseComments text).length : Int) with
        | .error e =>
          ({ s with pending := some { p with comments := some (parseComments text),
                                             quantity := ((parseComments text).length : Int) } },
            .pricingError e.message)
        | .ok basePrice =>
          ({ s with pending := some { p with comments := some (parseComments text),
                                             quantity := ((parseComments text).length : Int),
                                             basePrice := basePrice,
                                             totalPrice := basePrice + FIXED_FEE },
                    editField := none },
            .orderSummary { p with comments := some (parseComments text),
                                   quantity := ((parseComments text).length : Int),
                                   basePrice := basePrice,
                                   totalPrice := basePrice + FIXED_FEE }) := by
  simp only [editFlow]
  rw [if_neg (by rw [hedit]; decide), if_neg (by rw [hedit]; decide), if_pos hedit, hsvc]

/-- A truthy target is what the main flow continues with. -/
theorem target_truthy (s : Session) (target : String) (htgt : s.targetUsername = some target)
    (htgt2 : target ≠ "") :
    (if truthy s.targetUsername then s.targetUsername else none) = some target := by
  simp [htgt, truthy, htgt2]

/-! ## Text handler: the claims -/

/-- C4: a free-text event that fails validation leaves the session equal to
what it was. Whenever the reply of the text handler is a validation error the
session is unchanged; and each listed failure is such a case, in the initial
flow and in the edit flow: a target empty after trimming and stripping a
leading at-sign, a quantity that does not parse or lies outside
`[min_qty, max_qty]`, a comment list that is empty or whose count lies outside
`[min_qty, max_qty]`. Quantity 5 for a service with `min_qty = 10` creates no
draft, and the same session then accepts 250 at once. -/
theorem C4_validation_keeps_session (db : List Pricing) (s : Session) (service : Service)
    (p : Draft) (platform serviceType serviceId target text fromId now : String) :
    ((onText db s text fromId now).2.isValidationError = true →
      (onText db s text fromId now).1 = s)
    ∧ (s.platform = some platform → platform ≠ "" → s.serviceType = some serviceType →
        serviceType ≠ "" → s.serviceId = some serviceId → serviceId ≠ "" →
        s.service = some service → s.pending = none →
        ((truthy s.targetUsername = false → stripAt (trim text) = "" →
            onText db s text fromId now = (s, .invalidUsername "back_service"))
        ∧ (s.targetUsername = some target → target ≠ "" → serviceType ≠ "comment" →
            (parseInt (trim text) = none ∨ ∃ n, parseInt (trim text) = some n
              ∧ (n < service.min_qty ∨ service.max_qty < n)) →
            onText db s text fromId now
              = (s, .enterNumber service.min_qty service.max_qty "back_service"))
        ∧ (s.targetUsername = some target → target ≠ "" → serviceType = "comment" →
            ((parseComments text).length = 0
              ∨ ((parseComments text).length : Int) < service.min_qty
              ∨ service.max_qty < ((parseComments text).length : Int)) →
            onText db s text fromId now
              = (s, .enterComments service.min_qty service.max_qty "back_service"))))
    ∧ (s.pending = some p →
        ((s.editField = some "username" → stripAt (trim text) = "" →
            onText db s text fromId now = (s, .invalidUsername "back_order_summary"))
        ∧ (s.editField = some "quantity" → s.service = some service →
            (parseInt (trim text) = none ∨ ∃ n, parseInt (trim text) = some n
              ∧ (n < service.min_qty ∨ service.max_qty < n)) →
            onText db s text fromId now
              = (s, .enterNumber service.min_qty service.max_qty "back_order_summary"))
        ∧ (s.editField = some "comments" → s.service = some service →
            ((parseComments text).length = 0
              ∨ ((parseComments text).length : Int) < service.min_qty
              ∨ service.max_qty < ((parseComments text).length : Int)) →
            onText db s text fromId now
              = (s, .enterComments service.min_qty service.max_qty "back_order_summary"))))
    ∧ onText sampleDb (awaiting followers) "5" "7" "1"
        = (awaiting followers, .enterNumber 10 10000 "back_service")
    ∧ (onText sampleDb (onText sampleDb (awaiting followers) "5" "7" "1").1 "250" "7" "2").1
        = { awaiting followers with
            pending := some (newDraft "instagram" "follower" "s1" "bob" followers none 250 9
              "7" "2") } := by
  refine ⟨onText_validation db s text fromId now, ?_, ?_, ?_, ?_⟩
  · intro hplat hplat2 hty hty2 hid hid2 hsvc hpend
    rw [onText_main db s text fromId now hpend,
      mainFlow_selected db s service platform serviceType serviceId text fromId now
        hplat hplat2 hty hty2 hid hid2 hsvc]
    refine ⟨?_, ?_, ?_⟩
    · intro htgt hu
      have h1 : (if truthy s.targetUsername then s.targetUsername else none) = none := by
        simp [htgt]
      rw [h1]
      simp only []
      rw [if_pos hu]
    · intro htgt htgt2 hnc hbad
      rw [target_truthy s target htgt htgt2]
      simp only []
      rw [if_neg (fun h => hnc h.1), if_pos hpend]
      rcases hbad with hnone | ⟨n, hn, hout⟩
      · rw [hnone]
      · rw [hn]
        simp only []
        rw [if_pos hout]
    · intro htgt htgt2 hc hbad
      rw [target_truthy s target htgt htgt2]
      simp only []
      rw [if_pos ⟨hc, by rw [hpend]; rfl⟩, if_pos hbad]
  · intro hpend
    refine ⟨?_, ?_, ?_⟩
    · intro hedit hu
      rw [onText_edit db s p "username" text fromId now (by decide) hedit hpend,
        editFlow_username db s p text hedit, if_pos hu]
    · intro hedit hsvc hbad
      rw [onText_edit db s p "quantity" text fromId now (by decide) hedit hpend,
        editFlow_quantity db s p service text hedit hsvc]
      rcases hbad with hnone | ⟨n, hn, hout⟩
      · rw [hnone]
      · rw [hn]
        simp only []
        rw [if_pos hout]
    · intro hedit hsvc hbad
      rw [onText_edit db s p "comments" text fromId now (by decide) hedit hpend,
        editFlow_comments db s p service text hedit hsvc, if_pos hbad]
  · decide!
  · decide!

/-- C4 at the worked example: 5 is below `min_qty = 10`, the session stays. -/
theorem C4_validation_keeps_session_witness :
    (onText sampleDb (awaiting followers) "5" "7" "1").2.isValidationError = true
    ∧ (onText sampleDb (awaiting followers) "5" "7" "1").1 = awaiting followers :=
  ⟨by decide!,
    (C4_validation_keeps_session sampleDb (awaiting followers) followers viewsDraft
      "instagram" "follower" "s1" "bob" "5" "7" "1").1 (by decide!)⟩

/-- C5: in a session with platform, a service of a type other than `comment`
and a target set, no draft and no field being edited, a text that parses as an
integer `n` with `min_qty ≤ n ≤ max_qty`, for which the resolver returns `b`,
makes the text handler store a draft with quantity `n`, base price `b`, total
`b + 0.5`, the session's platform, service id, service type and target, and no
comments; every other session field is unchanged. With `min_qty = 10`,
`max_qty = 10000`, the flat rule (100, 3) and text 250 the base price is 9 and
the total 9.5. -/
theorem C5_quantity_builds_draft (db : List Pricing) (s : Session) (service : Service)
    (platform serviceType serviceId target text fromId now : String) (n : Int) (b : ℚ)
    (hplat : s.platform = some platform) (hplat2 : platform ≠ "")
    (hty : s.serviceType = some serviceType) (hty2 : serviceType ≠ "")
    (hnc : serviceType ≠ "comment")
    (hid : s.serviceId = some serviceId) (hid2 : serviceId ≠ "")
    (hsvc : s.service = some service)
    (htgt : s.targetUsername = some target) (htgt2 : target ≠ "")
    (hpend : s.pending = none) (_hedit : s.editField = none)
    (hparse : parseInt (trim text) = some n)
    (hmin : service.min_qty ≤ n) (hmax : n ≤ service.max_qty)
    (hprice : getPricingForService db service n = .ok b) :
    (∃ p : Draft,
      onText db s text fromId now = ({ s with pending := some p }, .orderSummary p)
      ∧ p.quantity = n ∧ p.basePrice = b ∧ p.totalPrice = b + 1 / 2
      ∧ p.platform = platform ∧ p.serviceId = serviceId ∧ p.serviceType = serviceType
      ∧ p.targetUsername = target ∧ p.comments = none
      ∧ p.service_display_name = service.display_name)
    ∧ ((onText sampleDb (awaiting followers) "250" "7" "1").1.pending.map
        fun p => (p.quantity, p.basePrice, p.totalPrice)) = some (250, 9, 19 / 2) := by
  refine ⟨⟨newDraft platform serviceType serviceId target service none n b fromId now,
    ?_, rfl, rfl, rfl, rfl, rfl, rfl, rfl, rfl, rfl⟩, by decide!⟩
  rw [onText_main db s text fromId now hpend,
    mainFlow_selected db s service platform serviceType serviceId text fromId now
      hplat hplat2 hty hty2 hid hid2 hsvc,
    target_truthy s target htgt htgt2]
  simp only []
  rw [if_neg (fun h => hnc h.1), if_pos hpend, hparse]
  simp only []
  rw [if_neg (by rintro (h | h) <;> omega), hprice]

/-- C5 at the worked example: followers, text 250. -/
theorem C5_quantity_builds_draft_witness :
    ∃ p : Draft,
      onText sampleDb (awaiting followers) "250" "7" "1"
        = ({ awaiting followers with pending := some p }, .orderSummary p)
      ∧ p.quantity = 250 ∧ p.basePrice = 9 ∧ p.totalPrice = 9 + 1 / 2
      ∧ p.platform = "instagram" ∧ p.serviceId = "s1" ∧ p.serviceType = "follower"
      ∧ p.targetUsername = "bob" ∧ p.comments = none
      ∧ p.service_display_name = followers.display_name :=
  (C5_quantity_builds_draft sampleDb (awaiting followers) followers
    "instagram" "follower" "s1" "bob" "250" "7" "1" 250 9
    rfl (by decide) rfl (by decide) (by decide) rfl (by decide) rfl rfl (by decide) rfl rfl
    (by decide) (by decide) (by decide) (by decide!)).1

/-- C6 as stated fails when the catalog allows zero comments: for
`min_qty = 0` the empty text has `c = 0` entries with `min_qty ≤ c ≤ max_qty`
and the resolver prices quantity 0, yet the handler rejects the text and
stores no draft. -/
theorem C6_counterexample :
    (awaiting commentsFromZero).serviceType = some "comment"
    ∧ (awaiting commentsFromZero).pending = none
    ∧ parseComments "" = []
    ∧ commentsFromZero.min_qty ≤ ((parseComments "").length : Int)
    ∧ ((parseComments "").length : Int) ≤ commentsFromZero.max_qty
    ∧ getPricingForService sampleDb commentsFromZero ((parseComments "").length : Int) = .ok 0
    ∧ onText sampleDb (awaiting commentsFromZero) "" "7" "1"
        = (awaiting commentsFromZero, .enterComments 0 500 "back_service")
    ∧ (onText sampleDb (awaiting commentsFromZero) "" "7" "1").1.pending = none := by
  decide!

/-- C6, amended: in a session with platform, a service of type `comment` and a
target set, and no draft, a text whose comma-split, trimmed, non-empty entries
number `c ≥ 1` with `min_qty ≤ c ≤ max_qty`, for which the resolver returns `b`
for quantity `c`, makes the text handler store a draft whose comments are
exactly those entries in order, whose quantity is `c`, whose base price is `b`
and whose total is `b + 0.5`. With `min_qty = 1`, `max_qty = 500`, the flat
rule (100, 10) and the text `Nice!, Cool!, Wow!` the draft has quantity 3, base
price 10 and total 10.5. -/
theorem C6_comments_build_draft (db : List Pricing) (s : Session) (service : Service)
    (platform serviceId target text fromId now : String) (b : ℚ)
    (hplat : s.platform = some platform) (hplat2 : platform ≠ "")
    (hty : s.serviceType = some "comment")
    (hid : s.serviceId = some serviceId) (hid2 : serviceId ≠ "")
    (hsvc : s.service = some service)
    (htgt : s.targetUsername = some target) (htgt2 : target ≠ "")
    (hpend : s.pending = none)
    (hpos : 1 ≤ (parseComments text).length)
    (hmin : service.min_qty ≤ ((parseComments text).length : Int))
    (hmax : ((parseComments text).length : Int) ≤ service.max_qty)
    (hprice : getPricingForService db service ((parseComments text).length : Int) = .ok b) :
    (∃ p : Draft,
      onText db s text fromId now = ({ s with pending := some p }, .orderSummary p)
      ∧ p.comments = some (parseComments text)
      ∧ p.quantity = ((parseComments text).length : Int)
      ∧ p.basePrice = b ∧ p.totalPrice = b + 1 / 2
      ∧ p.platform = platform ∧ p.serviceId = serviceId ∧ p.serviceType = "comment"
      ∧ p.targetUsername = target)
    ∧ parseComments "Nice!, Cool!, Wow!" = ["Nice!", "Cool!", "Wow!"]
    ∧ ((onText sampleDb (awaiting commentsService) "Nice!, Cool!, Wow!" "7" "1").1.pending.map
        fun p => (p.comments, p.quantity, p.basePrice, p.totalPrice))
        = some (some ["Nice!", "Cool!", "Wow!"], 3, 10, 21 / 2) := by
  refine ⟨⟨newDraft platform "comment" serviceId target service (some (parseComments text))
    ((parseComments text).length : Int) b fromId now,
    ?_, rfl, rfl, rfl, rfl, rfl, rfl, rfl, rfl⟩, by decide, by decide!⟩
  rw [onText_main db s text fromId now hpend,
    mainFlow_selected db s service platform "comment" serviceId text fromId now
      hplat hplat2 hty (by decide) hid hid2 hsvc,
    target_truthy s target htgt htgt2]
  simp only []
  rw [if_pos (by simp [hpend]), if_neg (by rintro (h | h | h) <;> omega), hprice]

/-- C6 (amended) at the worked example: three comments. -/
theorem C6_comments_build_draft_witness :
    ∃ p : Draft,
      onText sampleDb (awaiting commentsService) "Nice!, Cool!, Wow!" "7" "1"
        = ({ awaiting commentsService with pending := some p }, .orderSummary p)
      ∧ p.comments = some (parseComments "Nice!, Cool!, Wow!")
      ∧ p.quantity = ((parseComments "Nice!, Cool!, Wow!").length : Int)
      ∧ p.basePrice = 10 ∧ p.totalPrice = 10 + 1 / 2
      ∧ p.platform = "instagram" ∧ p.serviceId = "s2" ∧ p.serviceType = "comment"
      ∧ p.targetUsername = "bob" :=
  (C6_comments_build_draft sampleDb (awaiting commentsService) commentsService
    "instagram" "s2" "bob" "Nice!, Cool!, Wow!" "7" "1" 10
    rfl (by decide) rfl rfl (by decide) rfl rfl (by decide) rfl
    (by decide) (by decide) (by decide) (by decide!)).1

/-- C7 as stated fails when the resolver has no price for the new quantity:
a draft of 50 views is being edited, the text `200` parses as an integer within
`[min_qty, max_qty]`, yet no tier covers 200. After the text handler the edit
marker is still set and the draft keeps the base price 2.5 and total 3 of the
50 views: neither price was recomputed. -/
theorem C7_counterexample :
    (editing tieredViews viewsDraft "quantity").pending = some viewsDraft
    ∧ (editing tieredViews viewsDraft "quantity").editField = some "quantity"
    ∧ (editing tieredViews viewsDraft "quantity").service = some tieredViews
    ∧ parseInt (trim "200") = some 200
    ∧ tieredViews.min_qty ≤ 200 ∧ 200 ≤ tieredViews.max_qty
    ∧ getPricingForService gapDb tieredViews 200 = .error .NoTierForQuantity
    ∧ (onText gapDb (editing tieredViews viewsDraft "quantity") "200" "7" "2").1.editField
        = some "quantity"
    ∧ ((onText gapDb (editing tieredViews viewsDraft "quantity") "200" "7" "2").1.pending.map
        fun q => (q.basePrice, q.totalPrice)) = some (5 / 2, 3) := by
  decide!

/-- C7, amended: editing the quantity of an existing draft recomputes base
price and total whenever the resolver returns a price. In a session holding a
draft, with the quantity being edited and the service selected, a text that
parses as an integer `n` with `min_qty ≤ n ≤ max_qty`, for which the resolver
returns `b` for `(service, n)`, leaves a draft with quantity `n`, base price
`b` and total `b + 0.5`; the edit marker is cleared, every other field of the
draft and of the session is unchanged. -/
theorem C7_edit_quantity_recomputes (db : List Pricing) (s : Session) (p : Draft)
    (service : Service) (text fromId now : String) (n : Int) (b : ℚ)
    (hpend : s.pending = some p) (hedit : s.editField = some "quantity")
    (hsvc : s.service = some service)
    (hparse : parseInt (trim text) = some n)
    (hmin : service.min_qty ≤ n) (hmax : n ≤ service.max_qty)
    (hprice : getPricingForService db service n = .ok b) :
    ∃ q : Draft,
      onText db s text fromId now
        = ({ s with pending := some q, editField := none }, .orderSummary q)
      ∧ q.quantity = n ∧ q.basePrice = b ∧ q.totalPrice = b + 1 / 2
      ∧ q.totalPrice = q.basePrice + FIXED_FEE
      ∧ q.serviceId = p.serviceId ∧ q.platform = p.platform ∧ q.serviceType = p.serviceType
      ∧ q.service_display_name = p.service_display_name
      ∧ q.targetUsername = p.targetUsername ∧ q.comments = p.comments
      ∧ q.internalOrderId = p.internalOrderId := by
  refine ⟨{ p with quantity := n, basePrice := b, totalPrice := b + FIXED_FEE },
    ?_, rfl, rfl, rfl, rfl, rfl, rfl, rfl, rfl, rfl, rfl, rfl⟩
  rw [onText_edit db s p "quantity" text fromId now (by decide) hedit hpend,
    editFlow_quantity db s p service text hedit hsvc, hparse]
  simp only []
  rw [if_neg (by rintro (h | h) <;> omega), hprice]

/-- C7 at a draft of 100 followers whose quantity is edited to 250. -/
theorem C7_edit_quantity_recomputes_witness :
    ∃ q : Draft,
      onText sampleDb (editing followers followersDraft "quantity") "250" "7" "2"
        = ({ editing followers followersDraft "quantity" with
              pending := some q, editField := none }, .orderSummary q)
      ∧ q.quantity = 250 ∧ q.basePrice = 9 ∧ q.totalPrice = 9 + 1 / 2
      ∧ q.totalPrice = q.basePrice + FIXED_FEE
      ∧ q.serviceId = followersDraft.serviceId ∧ q.platform = followersDraft.platform
      ∧ q.serviceType = followersDraft.serviceType
      ∧ q.service_display_name = followersDraft.service_display_name
      ∧ q.targetUsername = followersDraft.targetUsername
      ∧ q.comments = followersDraft.comments
      ∧ q.internalOrderId = followersDraft.internalOrderId :=
  C7_edit_quantity_recomputes sampleDb (editing followers followersDraft "quantity")
    followersDraft followers "250" "7" "2" 250 9 rfl rfl rfl (by decide) (by decide) (by decide)
    (by decide!)

/-- C8: editing the target never changes the price fields. In a session
holding a draft with the target being edited, after any text the draft has the
same base price, total, quantity, comments, platform and service as before, and
the session the same platform and service; on a valid text only the draft's
target, the session's target and the edit marker change, on an invalid text
nothing changes. -/
theorem C8_edit_target_keeps_prices (db : List Pricing) (s : Session) (p : Draft)
    (text fromId now : String)
    (hpend : s.pending = some p) (hedit : s.editField = some "username") :
    (∃ q : Draft, (onText db s text fromId now).1.pending = some q
      ∧ q.basePrice = p.basePrice ∧ q.totalPrice = p.totalPrice ∧ q.quantity = p.quantity
      ∧ q.comments = p.comments ∧ q.platform = p.platform ∧ q.serviceId = p.serviceId
      ∧ q.serviceType = p.serviceType ∧ q.service_display_name = p.service_display_name
      ∧ q.internalOrderId = p.internalOrderId)
    ∧ (onText db s text fromId now).1.platform = s.platform
    ∧ (onText db s text fromId now).1.service = s.service
    ∧ (onText db s text fromId now).1.serviceId = s.serviceId
    ∧ (onText db s text fromId now).1.serviceType = s.serviceType
    ∧ (stripAt (trim text) ≠ "" →
        onText db s text fromId now
          = ({ s with pending := some { p with targetUsername := stripAt (trim text) },
                      targetUsername := some (stripAt (trim text)), editField := none },
              .orderSummary { p with targetUsername := stripAt (trim text) }))
    ∧ (stripAt (trim text) = "" →
        onText db s text fromId now = (s, .invalidUsername "back_order_summary")) := by
  rw [onText_edit db s p "username" text fromId now (by decide) hedit hpend,
    editFlow_username db s p text hedit]
  by_cases hu : stripAt (trim text) = ""
  · rw [if_pos hu]
    exact ⟨⟨p, hpend, rfl, rfl, rfl, rfl, rfl, rfl, rfl, rfl, rfl⟩, rfl, rfl, rfl, rfl,
      fun h => absurd hu h, fun _ => rfl⟩
  · rw [if_neg hu]
    exact ⟨⟨_, rfl, rfl, rfl, rfl, rfl, rfl, rfl, rfl, rfl, rfl⟩, rfl, rfl, rfl, rfl,
      fun _ => rfl, fun h => absurd h hu⟩

/-- C8 at a draft of 100 followers whose target is edited. -/
theorem C8_edit_target_keeps_prices_witness :
    ∃ q : Draft,
      (onText sampleDb (editing followers followersDraft "username") "@alice" "7" "2").1.pending
        = some q
      ∧ q.basePrice = followersDraft.basePrice ∧ q.totalPrice = followersDraft.totalPrice
      ∧ q.quantity = followersDraft.quantity
      ∧ q.comments = followersDraft.comments ∧ q.platform = followersDraft.platform
      ∧ q.serviceId = followersDraft.serviceId
      ∧ q.serviceType = followersDraft.serviceType
      ∧ q.service_display_name = followersDraft.service_display_name
      ∧ q.internalOrderId = followersDraft.internalOrderId :=
  (C8_edit_target_keeps_prices sampleDb (editing followers followersDraft "username")
    followersDraft "@alice" "7" "2" rfl rfl).1

/-- When the resolver fails in the initial-entry flow, the session is left as
it was. -/
theorem mainFlow_pricingError (db : List Pricing) (s : Session) (text fromId now : String)
    (h : (mainFlow db s text fromId now).2.isPricingError = true) :
    (mainFlow db s text fromId now).1 = s := by
  generalize hX : mainFlow db s text fromId now = X at h ⊢
  simp only [mainFlow] at hX
  repeat' (split at hX)
  all_goals (subst hX; first | rfl | (simp [Reply.isPricingError] at h))

/-- C9, the edit flow at a failing resolver: a draft of 50 views is edited to
150, a quantity within `[min_qty, max_qty]` that no tier covers. The resolver
fails with `NoTierForQuantity`, yet the session is not the one before the
event: the draft now has quantity 150 and still the base price 2.5 and total 3
of the 50 views. The same text in the initial-entry flow leaves the session
unchanged. -/
theorem C9_edit_commits_quantity_before_pricing :
    getPricingForService gapDb tieredViews 150 = .error .NoTierForQuantity
    ∧ onText gapDb (editing tieredViews viewsDraft "quantity") "150" "7" "2"
        = ({ editing tieredViews viewsDraft "quantity" with
              pending := some { viewsDraft with quantity := 150 } },
            .pricingError "No pricing tier found for this quantity.")
    ∧ (onText gapDb (editing tieredViews viewsDraft "quantity") "150" "7" "2").1
        ≠ editing tieredViews viewsDraft "quantity"
    ∧ ((onText gapDb (editing tieredViews viewsDraft "quantity") "150" "7" "2").1.pending.map
        fun q => (q.quantity, q.basePrice, q.totalPrice)) = some (150, 5 / 2, 3)
    ∧ onText gapDb (awaiting tieredViews) "150" "7" "2"
        = (awaiting tieredViews, .pricingError "No pricing tier found for this quantity.") := by
  decide!

/-- C10: back-navigation to the service list leaves a session with no draft,
no target and no service selection (service, service id and service type all
empty), and the same platform. -/
theorem C10_back_service_clears (s : Session) :
    (back_service s).pending = none
    ∧ (back_service s).targetUsername = none
    ∧ (back_service s).service = none
    ∧ (back_service s).serviceId = none
    ∧ (back_service s).serviceType = none
    ∧ (back_service s).platform = s.platform :=
  ⟨rfl, rfl, rfl, rfl, rfl, rfl⟩

/-! ## Event loop: lemmas -/

theorem editFlow_entry (s : Session) (p : Draft)
    (h : (if truthy s.editField then s.pending else none) = some p) : s.pending = some p := by
  split at h
  · exact h
  · cases h

/-- The text handler never touches the selection. -/
theorem onText_selection (db : List Pricing) (s : Session) (text fromId now : String) :
    (onText db s text fromId now).1.service = s.service
    ∧ (onText db s text fromId now).1.serviceId = s.serviceId
    ∧ (onText db s text fromId now).1.serviceType = s.serviceType
    ∧ (onText db s text fromId now).1.platform = s.platform := by
  unfold onText
  split
  · rename_i p hp
    generalize hX : editFlow db s p text = X
    simp only [editFlow] at hX
    repeat' (split at hX)
    all_goals (subst hX; exact ⟨rfl, rfl, rfl, rfl⟩)
  · generalize hX : mainFlow db s text fromId now = X
    simp only [mainFlow] at hX
    repeat' (split at hX)
    all_goals (subst hX; exact ⟨rfl, rfl, rfl, rfl⟩)

theorem onText_pricesTogether (db : List Pricing) (s : Session) (text fromId now : String)
    (h : PricesTogether s) : PricesTogether (onText db s text fromId now).1 := by
  unfold onText
  split
  · rename_i p hp
    have hp2 := h p (editFlow_entry s p hp)
    generalize hX : editFlow db s p text = X
    simp only [editFlow] at hX
    repeat' (split at hX)
    all_goals
      (subst hX
       first
        | exact h
        | (intro q hq; simp at hq; subst hq; first | exact hp2 | rfl))
  · generalize hX : mainFlow db s text fromId now = X
    simp only [mainFlow] at hX
    repeat' (split at hX)
    all_goals (subst hX; first | exact h | (intro q hq; simp at hq; subst hq; rfl))

theorem onText_draftMatches (db : List Pricing) (s : Session) (text fromId now : String)
    (h : DraftMatchesSelection s) : DraftMatchesSelection (onText db s text fromId now).1 := by
  obtain ⟨hsvc, hsid, hsty, hspl⟩ := onText_selection db s text fromId now
  refine ⟨?_, ?_⟩
  · intro service hservice
    rw [hsvc] at hservice
    rw [hsid, hsty]
    exact h.1 service hservice
  · rw [hsvc, hsid, hsty, hspl]
    clear hsvc hsid hsty hspl
    unfold onText
    split
    · rename_i p hp
      have hp2 := h.2 p (editFlow_entry s p hp)
      generalize hX : editFlow db s p text = X
      simp only [editFlow] at hX
      repeat' (split at hX)
      all_goals
        (subst hX
         first
          | exact h.2
          | (intro q hq; simp at hq; subst hq; exact hp2))
    · generalize hX : mainFlow db s text fromId now = X
      simp only [mainFlow] at hX
      repeat' (split at hX)
      all_goals
        (subst hX
         first
          | exact h.2
          | (intro q hq; simp at hq; subst hq; simp_all [newDraft]))

theorem getServiceById_some (services : List Service) (id : String) (service : Service)
    (h : getServiceById services id = some service) : service ∈ services ∧ service._id = id := by
  unfold getServiceById at h
  exact ⟨List.mem_of_find?_eq_some h, by simpa using List.find?_some h⟩

theorem step_pricesTogether (services : List Service) (db : List Pricing) (s : Session)
    (e : Event) (h : PricesTogether s) : PricesTogether (step services db s e) := by
  cases e with
  | text text fromId now => exact onText_pricesTogether db s text fromId now h
  | selectPlatform platform =>
    simp only [step]; split
    · exact h
    · intro p hp; cases hp
  | selectService serviceId =>
    simp only [step]; split
    · exact h
    · unfold service_select; split
      · exact h
      · intro p hp; cases hp
  | start => intro p hp; cases hp
  | backPlatforms => intro p hp; cases hp
  | backService => intro p hp; cases hp
  | cancelOrder => intro p hp; cases hp
  | backOrderSummary => exact h
  | editUsername => exact h
  | editQuantity => exact h
  | editComments => exact h

theorem step_draftMatches (services : List Service) (db : List Pricing) (s : Session)
    (e : Event) (h : DraftMatchesSelection s) : DraftMatchesSelection (step services db s e) := by
  cases e with
  | text text fromId now => exact onText_draftMatches db s text fromId now h
  | selectPlatform platform =>
    simp only [step]; split
    · exact h
    · exact ⟨fun service hs => (by cases hs), fun p hp => (by cases hp)⟩
  | selectService serviceId =>
    simp only [step]; split
    · exact h
    · unfold service_select; split
      · exact h
      · rename_i service hfind
        refine ⟨fun service2 hs => ?_, fun p hp => (by cases hp)⟩
        have h2 : service = service2 := by simpa using hs
        subst h2
        exact ⟨(by rw [(getServiceById_some services serviceId service hfind).2]), rfl⟩
  | start => exact ⟨fun service hs => (by cases hs), fun p hp => (by cases hp)⟩
  | backPlatforms => exact ⟨fun service hs => (by cases hs), fun p hp => (by cases hp)⟩
  | backService => exact ⟨fun service hs => (by cases hs), fun p hp => (by cases hp)⟩
  | cancelOrder => exact ⟨h.1, fun p hp => (by cases hp)⟩
  | backOrderSummary => exact h
  | editUsername => exact h
  | editQuantity => exact h
  | editComments => exact h

/-- A property of the empty session that every event preserves holds of every
reachable session. -/
theorem reachable_induction (services : List Service) (db : List Pricing)
    (P : Session → Prop) (h0 : P emptySession)
    (hstep : ∀ s e, P s → P (step services db s e)) (s : Session)
    (h : Reachable services db s) : P s := by
  obtain ⟨events, hrun⟩ := h
  subst hrun
  have key : ∀ (events : List Event) (s0 : Session), P s0 → P (run services db s0 events) := by
    intro events
    induction events with
    | nil => intro s0 hs0; exact hs0
    | cons e rest ih => intro s0 hs0; exact ih _ (hstep s0 e hs0)
  exact key events emptySession h0

theorem reachable_pricesTogether (services : List Service) (db : List Pricing) (s : Session)
    (h : Reachable services db s) : PricesTogether s :=
  reachable_induction services db PricesTogether (fun p hp => by cases hp)
    (fun s e hs => step_pricesTogether services db s e hs) s h

theorem reachable_draftMatches (services : List Service) (db : List Pricing) (s : Session)
    (h : Reachable services db s) : DraftMatchesSelection s :=
  reachable_induction services db DraftMatchesSelection
    ⟨fun service hs => (by cases hs), fun p hp => (by cases hp)⟩
    (fun s e hs => step_draftMatches services db s e hs) s h

/-! ## Event loop: the claims -/

/-- C11, at an order of 250 followers that is cancelled from its summary:
`cancel_order` removes the draft only. The session keeps its platform, service
and target, so it is not the empty session, and the following text `100`, a
number within the service's range, builds a new draft for the same target. -/
theorem C11_cancel_keeps_selection :
    (run sampleServices sampleDb emptySession followersOrder).pending
        = some (newDraft "instagram" "follower" "s1" "bob" followers none 250 9 "7" "2")
    ∧ cancel_order (run sampleServices sampleDb emptySession followersOrder)
        = { platform := some "instagram", serviceType := some "follower",
            serviceId := some "s1", targetUsername := some "bob", pending := none,
            service := some followers, editField := none }
    ∧ cancel_order (run sampleServices sampleDb emptySession followersOrder) ≠ emptySession
    ∧ (onText sampleDb (cancel_order (run sampleServices sampleDb emptySession followersOrder))
        "100" "7" "3").1.pending
        = some (newDraft "instagram" "follower" "s1" "bob" followers none 100 3 "7" "3") := by
  decide!

/-- C12, at an order of 250 followers whose quantity is being edited:
`back_platforms` clears platform, service, target and draft but leaves the
edit marker, so the session is not the empty session `/start` produces. -/
theorem C12_back_platforms_keeps_edit_marker :
    run sampleServices sampleDb emptySession (followersOrder ++ [.editQuantity])
        = editing followers
            (newDraft "instagram" "follower" "s1" "bob" followers none 250 9 "7" "2") "quantity"
    ∧ back_platforms (run sampleServices sampleDb emptySession (followersOrder ++ [.editQuantity]))
        = { emptySession with editField := some "quantity" }
    ∧ back_platforms (run sampleServices sampleDb emptySession (followersOrder ++ [.editQuantity]))
        ≠ start (run sampleServices sampleDb emptySession (followersOrder ++ [.editQuantity]))
    ∧ (back_platforms
        (run sampleServices sampleDb emptySession (followersOrder ++ [.editQuantity]))).editField
        ≠ none := by
  decide!

/-- C13 as stated fails: with `tiktok` selected, the select-service event for
the Instagram followers service sets that service although its platform is not
the selected one, and the order that follows has a draft whose platform
(`tiktok`) is not the platform of its service (`instagram`). -/
theorem C13_counterexample :
    (platform_select emptySession "tiktok").platform = some "tiktok"
    ∧ getServiceById sampleServices "s1" = some followers
    ∧ followers.platform ≠ "tiktok"
    ∧ (service_select sampleServices (platform_select emptySession "tiktok") "s1").service
        = some followers
    ∧ service_select sampleServices (platform_select emptySession "tiktok") "s1"
        ≠ platform_select emptySession "tiktok"
    ∧ ((run sampleServices sampleDb emptySession
          [.start, .selectPlatform "tiktok", .selectService "s1", .text "bob" "7" "1",
            .text "250" "7" "2"]).pending.map fun p => (p.platform, p.serviceId))
        = some ("tiktok", "s1") := by
  decide!

/-- C13, amended: the select-service event sets the session's service if and
only if the service exists in the catalog, whatever platform is selected. When
the id names no service the session is unchanged; when it names `service`, a
member of the catalog with that id, the session gets the service, its type and
the id, and loses target and draft. The platform is never changed, and the
platform of a draft in a reachable session is the session's platform. -/
theorem C13_service_select (services : List Service) (s : Session) (serviceId : String) :
    (getServiceById services serviceId = none → service_select services s serviceId = s)
    ∧ (∀ service, getServiceById services serviceId = some service →
        service ∈ services ∧ service._id = serviceId
        ∧ service_select services s serviceId
            = { s with serviceType := some service.type, serviceId := some serviceId,
                       targetUsername := none, pending := none, service := some service })
    ∧ (service_select services s serviceId).platform = s.platform
    ∧ ∀ (db : List Pricing) (s2 : Session) (p : Draft),
        Reachable services db s2 → s2.pending = some p → s2.platform = some p.platform := by
  refine ⟨?_, ?_, ?_, fun db s2 p hreach hp =>
    ((reachable_draftMatches services db s2 hreach).2 p hp).2.2.2⟩
  · intro h
    unfold service_select
    rw [h]
  · intro service h
    obtain ⟨hmem, hid⟩ := getServiceById_some services serviceId service h
    refine ⟨hmem, hid, ?_⟩
    unfold service_select
    rw [h]
  · unfold service_select
    split <;> rfl

/-- C13 (amended) at the seed catalog: `s1` is the followers service. -/
theorem C13_service_select_witness :
    followers ∈ sampleServices ∧ followers._id = "s1"
    ∧ service_select sampleServices (platform_select emptySession "tiktok") "s1"
        = { platform_select emptySession "tiktok" with
              serviceType := some followers.type, serviceId := some "s1",
              targetUsername := none, pending := none, service := some followers } :=
  (C13_service_select sampleServices (platform_select emptySession "tiktok") "s1").2.1
    followers (by decide)

/-- C14: in every session reachable from the empty session by any sequence of
events, a draft that is present has a total equal to its base price plus the
fixed fee 0.5. -/
theorem C14_prices_together (services : List Service) (db : List Pricing) (s : Session)
    (p : Draft) (hreach : Reachable services db s) (hp : s.pending = some p) :
    p.totalPrice = p.basePrice + 1 / 2 :=
  reachable_pricesTogether services db s hreach p hp

/-- C14 at an order of 250 followers whose quantity is edited to 1000. -/
theorem C14_prices_together_witness :
    (newDraft "instagram" "follower" "s1" "bob" followers none 1000 30 "7" "2").totalPrice
      = (newDraft "instagram" "follower" "s1" "bob" followers none 1000 30 "7" "2").basePrice
          + 1 / 2 :=
  C14_prices_together sampleServices sampleDb
    (run sampleServices sampleDb emptySession
      (followersOrder ++ [.editQuantity, .text "1000" "7" "3"]))
    (newDraft "instagram" "follower" "s1" "bob" followers none 1000 30 "7" "2")
    ⟨followersOrder ++ [.editQuantity, .text "1000" "7" "3"], rfl⟩ (by decide!)

/-- C15: in every session reachable from the empty session by any sequence of
events, a draft that is present sits in a session with a service selected, and
the draft's service id, service type and platform are the session's; that
service id and type are those of the selected service. -/
theorem C15_draft_matches_selection (services : List Service) (db : List Pricing)
    (s : Session) (p : Draft) (hreach : Reachable services db s) (hp : s.pending = some p) :
    ∃ service, s.service = some service
      ∧ s.serviceId = some p.serviceId ∧ s.serviceType = some p.serviceType
      ∧ s.platform = some p.platform
      ∧ service._id = p.serviceId ∧ service.type = p.serviceType := by
  obtain ⟨hsel, hdraft⟩ := reachable_draftMatches services db s hreach
  obtain ⟨⟨service, hservice⟩, hid, hty, hpl⟩ := hdraft p hp
  obtain ⟨hid2, hty2⟩ := hsel service hservice
  refine ⟨service, hservice, hid, hty, hpl, ?_, ?_⟩
  · rw [hid] at hid2
    exact (Option.some.inj hid2).symm
  · rw [hty] at hty2
    exact (Option.some.inj hty2).symm

/-- C15 at an order of three comments. -/
theorem C15_draft_matches_selection_witness :
    ∃ service, (run sampleServices sampleDb emptySession commentsOrder).service = some service
      ∧ (run sampleServices sampleDb emptySession commentsOrder).serviceId = some "s2"
      ∧ (run sampleServices sampleDb emptySession commentsOrder).serviceType = some "comment"
      ∧ (run sampleServices sampleDb emptySession commentsOrder).platform = some "instagram"
      ∧ service._id = "s2" ∧ service.type = "comment" :=
  C15_draft_matches_selection sampleServices sampleDb
    (run sampleServices sampleDb emptySession commentsOrder)
    (newDraft "instagram" "comment" "s2" "bob" commentsService
      (some ["Nice!", "Cool!", "Wow!"]) 3 10 "7" "2")
    ⟨commentsOrder, rfl⟩ (by decide!)

/-- C16, at an order of three comments followed by the `edit_quantity` action
and the text `150`: the draft of type `comment` then has quantity 150 and three
comments, and base price 20, while the resolver's price for three comments
is 10. -/
theorem C16_edit_quantity_on_comment_draft :
    ((run sampleServices sampleDb emptySession
        (commentsOrder ++ [.editQuantity, .text "150" "7" "3"])).pending.map
      fun p => (p.serviceType, p.comments, p.quantity, p.basePrice, p.totalPrice))
      = some ("comment", some ["Nice!", "Cool!", "Wow!"], 150, 20, 41 / 2)
    ∧ getPricingForService sampleDb commentsService 3 = .ok 10
    ∧ Reachable sampleServices sampleDb
        (run sampleServices sampleDb emptySession
          (commentsOrder ++ [.editQuantity, .text "150" "7" "3"])) :=
  ⟨by decide!, by decide!, ⟨_, rfl⟩⟩

/-! ## Flat pricing: monotonicity -/

theorem selectedRule_some (db : List Pricing) (service : Service) (q : Int) (r : Pricing)
    (h : selectedRule db service q = some r) :
    ∃ first more, flatPricing db service = first :: more ∧ chosenRule first more q = r
      ∧ r ∈ flatPricing db service := by
  unfold selectedRule at h
  cases hf : flatPricing db service with
  | nil => rw [hf] at h; cases h
  | cons first more =>
    rw [hf] at h
    have hr : chosenRule first more q = r := by simpa using h
    refine ⟨first, more, rfl, hr, ?_⟩
    obtain ⟨before, after, hsplit, _, _⟩ := chosenRule_position first more q
    rw [hsplit, hr]
    simp

/-- The flat price at a quantity whose selected rule is `r`. -/
theorem getPricing_selected (db : List Pricing) (service : Service) (q : Int) (r : Pricing)
    (hmode : service.pricing_mode = "flat") (h : selectedRule db service q = some r) :
    getPricingForService db service q =
      .ok (((⌈(q : ℚ) / (r.unit_size : ℚ)⌉ : Int) : ℚ) * r.price_usd) := by
  obtain ⟨first, more, hf, hr, _⟩ := selectedRule_some db service q r h
  rw [getPricing_flat_cons db service q first more hmode hf, hr]

/-- C17: for a flat-mode service with positive unit sizes and prices, the price
is non-decreasing in the quantity among quantities that select the same rule
`(u, p)`; and for `k ≥ 1` with `k * u` and `k * u + 1` both selecting that
rule, the price is `k * p` at `k * u` and `(k + 1) * p` at `k * u + 1`. -/
theorem C17_flat_monotone_and_step (db : List Pricing) (service : Service) (q1 q2 : Int)
    (r : Pricing)
    (hmode : service.pricing_mode = "flat")
    (hpos : ∀ x ∈ flatPricing db service, 0 < x.unit_size ∧ 0 < x.price_usd)
    (h1 : selectedRule db service q1 = some r) (h2 : selectedRule db service q2 = some r)
    (hle : q1 ≤ q2) :
    (∃ b1 b2, getPricingForService db service q1 = .ok b1
        ∧ getPricingForService db service q2 = .ok b2 ∧ b1 ≤ b2)
    ∧ ∀ k : Int, 1 ≤ k →
        selectedRule db service (k * r.unit_size) = some r →
        selectedRule db service (k * r.unit_size + 1) = some r →
        getPricingForService db service (k * r.unit_size) = .ok ((k : ℚ) * r.price_usd)
        ∧ getPricingForService db service (k * r.unit_size + 1)
            = .ok (((k : ℚ) + 1) * r.price_usd) := by
  obtain ⟨_, _, _, _, hmem⟩ := selectedRule_some db service q1 r h1
  obtain ⟨hu, hp⟩ := hpos r hmem
  have hu2 : (0 : ℚ) < (r.unit_size : ℚ) := by exact_mod_cast hu
  refine ⟨⟨_, _, getPricing_selected db service q1 r hmode h1,
    getPricing_selected db service q2 r hmode h2, ?_⟩, ?_⟩
  · have hq : (q1 : ℚ) ≤ (q2 : ℚ) := by exact_mod_cast hle
    have hdiv : (q1 : ℚ) / (r.unit_size : ℚ) ≤ (q2 : ℚ) / (r.unit_size : ℚ) :=
      div_le_div_of_nonneg_right hq (le_of_lt hu2)
    have hceil : ⌈(q1 : ℚ) / (r.unit_size : ℚ)⌉ ≤ ⌈(q2 : ℚ) / (r.unit_size : ℚ)⌉ :=
      Int.ceil_mono hdiv
    have hceil2 : ((⌈(q1 : ℚ) / (r.unit_size : ℚ)⌉ : Int) : ℚ)
        ≤ ((⌈(q2 : ℚ) / (r.unit_size : ℚ)⌉ : Int) : ℚ) := by exact_mod_cast hceil
    exact mul_le_mul_of_nonneg_right hceil2 (le_of_lt hp)
  · intro k _ hk1 hk2
    rw [getPricing_selected db service _ r hmode hk1,
      getPricing_selected db service _ r hmode hk2]
    have hc1 : ⌈((k * r.unit_size : Int) : ℚ) / (r.unit_size : ℚ)⌉ = k := by
      rw [Int.ceil_eq_iff]
      push_cast
      rw [mul_div_assoc, div_self (ne_of_gt hu2), mul_one]
      constructor <;> linarith
    have hc2 : ⌈((k * r.unit_size + 1 : Int) : ℚ) / (r.unit_size : ℚ)⌉ = k + 1 := by
      rw [Int.ceil_eq_iff]
      push_cast
      have hu3 : (1 : ℚ) ≤ (r.unit_size : ℚ) := by exact_mod_cast hu
      constructor
      · rw [lt_div_iff₀ hu2]
        linarith
      · rw [div_le_iff₀ hu2]
        nlinarith
    rw [hc1, hc2]
    push_cast
    exact ⟨rfl, rfl⟩

/-- C17 at the followers service: 200 and 201 both fall back to the rule
(100, 3), so the prices are `2 * 3` and `(2 + 1) * 3`. -/
theorem C17_flat_monotone_and_step_witness :
    (∃ b1 b2, getPricingForService sampleDb followers 200 = .ok b1
        ∧ getPricingForService sampleDb followers 201 = .ok b2 ∧ b1 ≤ b2)
    ∧ getPricingForService sampleDb followers ((2 : Int) * (flatRule "s1" 100 3).unit_size)
        = .ok (((2 : Int) : ℚ) * (flatRule "s1" 100 3).price_usd)
    ∧ getPricingForService sampleDb followers ((2 : Int) * (flatRule "s1" 100 3).unit_size + 1)
        = .ok ((((2 : Int) : ℚ) + 1) * (flatRule "s1" 100 3).price_usd) :=
  ⟨(C17_flat_monotone_and_step sampleDb followers 200 201 (flatRule "s1" 100 3)
      (by decide) (by decide!) (by decide!) (by decide!) (by decide)).1,
    (C17_flat_monotone_and_step sampleDb followers 200 201 (flatRule "s1" 100 3)
      (by decide) (by decide!) (by decide!) (by decide!) (by decide)).2 2 (by decide)
      (by decide!) (by decide!)⟩

/-! ## Comment parsing -/

theorem splitComma_ne_nil (cs : List Char) : splitComma cs ≠ [] := by
  cases cs with
  | nil => simp [splitComma]
  | cons c cs =>
    unfold splitComma
    split
    · simp
    · split <;> simp

theorem joinComma_cons (piece : List Char) (pieces : List (List Char)) (h : pieces ≠ []) :
    joinComma (piece :: pieces) = piece ++ ',' :: joinComma pieces := by
  cases pieces with
  | nil => exact absurd rfl h
  | cons next rest => rfl

theorem joinComma_cons_head (c : Char) (piece : List Char) (pieces : List (List Char)) :
    joinComma ((c :: piece) :: pieces) = c :: joinComma (piece :: pieces) := by
  cases pieces with
  | nil => rfl
  | cons next rest => rfl

/-- Joining the pieces with commas gives the text back. -/
theorem joinComma_splitComma (cs : List Char) : joinComma (splitComma cs) = cs := by
  induction cs with
  | nil => rfl
  | cons c cs ih =>
    unfold splitComma
    split
    · rename_i hc
      rw [joinComma_cons [] _ (splitComma_ne_nil cs), ih, hc]
      rfl
    · cases hs : splitComma cs with
      | nil => exact absurd hs (splitComma_ne_nil cs)
      | cons piece pieces =>
        simp only []
        rw [joinComma_cons_head, ← hs, ih]

/-- No piece holds a comma. -/
theorem splitComma_no_comma (cs : List Char) : ∀ piece ∈ splitComma cs, ',' ∉ piece := by
  induction cs with
  | nil =>
    intro piece hp
    simp [splitComma] at hp
    rw [hp]
    simp
  | cons c cs ih =>
    intro piece hp
    unfold splitComma at hp
    split at hp
    · rcases List.mem_cons.mp hp with h | h
      · rw [h]; simp
      · exact ih piece h
    · rename_i hc
      cases hs : splitComma cs with
      | nil => exact absurd hs (splitComma_ne_nil cs)
      | cons first pieces =>
        rw [hs] at hp ih
        simp only [] at hp
        rcases List.mem_cons.mp hp with h | h
        · rw [h]
          intro hmem
          rcases List.mem_cons.mp hmem with h2 | h2
          · exact hc h2.symm
          · exact ih first (List.mem_cons_self _ _) h2
        · exact ih piece (List.mem_cons_of_mem _ h)

/-- There is one piece more than there are commas. -/
theorem splitComma_length (cs : List Char) : (splitComma cs).length = cs.count ',' + 1 := by
  induction cs with
  | nil => rfl
  | cons c cs ih =>
    unfold splitComma
    split
    · rename_i hc
      rw [hc, List.length_cons, ih, List.count_cons_self]
    · rename_i hc
      cases hs : splitComma cs with
      | nil => exact absurd hs (splitComma_ne_nil cs)
      | cons first pieces =>
        rw [hs] at ih
        simp only [List.length_cons] at ih ⊢
        rw [ih, List.count_cons_of_ne (fun h => hc h.symm)]

/-- Trimming removes a run of white space at each end, and nothing else. -/
theorem trimChars_decompose (cs : List Char) :
    ∃ pre post, cs = pre ++ trimChars cs ++ post
      ∧ (∀ ch ∈ pre, isJsWhiteSpace ch = true) ∧ (∀ ch ∈ post, isJsWhiteSpace ch = true) := by
  refine ⟨cs.takeWhile isJsWhiteSpace,
    ((cs.dropWhile isJsWhiteSpace).reverse.takeWhile isJsWhiteSpace).reverse, ?_, ?_, ?_⟩
  · have h1 := List.takeWhile_append_dropWhile isJsWhiteSpace cs
    have h2 := List.takeWhile_append_dropWhile isJsWhiteSpace
      (cs.dropWhile isJsWhiteSpace).reverse
    have h3 : cs.dropWhile isJsWhiteSpace
        = trimChars cs
          ++ ((cs.dropWhile isJsWhiteSpace).reverse.takeWhile isJsWhiteSpace).reverse := by
      unfold trimChars
      rw [← List.reverse_append, h2, List.reverse_reverse]
    rw [List.append_assoc, ← h3, h1]
  · intro ch hch
    exact List.mem_takeWhile_imp hch
  · intro ch hch
    exact List.mem_takeWhile_imp (List.mem_reverse.mp hch)

/-- A trimmed text does not start with white space. -/
theorem trimChars_head (cs : List Char) (ch : Char) (h : (trimChars cs).head? = some ch) :
    isJsWhiteSpace ch = false := by
  have hpre : trimChars cs <+: cs.dropWhile isJsWhiteSpace := by
    unfold trimChars
    exact List.rdropWhile_prefix isJsWhiteSpace _
  obtain ⟨t, ht⟩ := hpre
  cases htr : trimChars cs with
  | nil => rw [htr] at h; cases h
  | cons c rest =>
    rw [htr] at h ht
    have hc : c = ch := by simpa using h
    have hd := List.head?_dropWhile_not isJsWhiteSpace cs
    rw [← ht] at hd
    simp only [List.cons_append, List.head?_cons] at hd
    rw [← hc]
    exact hd

/-- A trimmed text does not end with white space. -/
theorem trimChars_last (cs : List Char) (ch : Char) (h : (trimChars cs).getLast? = some ch) :
    isJsWhiteSpace ch = false := by
  unfold trimChars at h
  rw [List.getLast?_reverse] at h
  have hd := List.head?_dropWhile_not isJsWhiteSpace (cs.dropWhile isJsWhiteSpace).reverse
  rw [h] at hd
  exact hd

/-- Trimming adds no character. -/
theorem trimChars_subset (cs : List Char) (ch : Char) (h : ch ∈ trimChars cs) : ch ∈ cs := by
  obtain ⟨pre, post, hcs, _, _⟩ := trimChars_decompose cs
  rw [hcs]
  simp [h]

/-- C18: `parseComments` returns, in order, the pieces of the text cut at its
commas (joined with commas they give the text back, none holds a comma, and
there is one more than commas), each trimmed of the white space at its two
ends, without those that are empty after trimming. So every entry is
non-empty, neither starts nor ends with white space and holds no comma; the
text `Nice!, Cool!, Wow!` gives the three entries `Nice!`, `Cool!`, `Wow!`. -/
theorem C18_parseComments (rawText : String) :
    parseComments rawText
      = ((splitComma rawText.data).map fun piece => String.mk (trimChars piece)).filter
          (fun c => c ≠ "")
    ∧ joinComma (splitComma rawText.data) = rawText.data
    ∧ (∀ piece ∈ splitComma rawText.data, ',' ∉ piece)
    ∧ (splitComma rawText.data).length = rawText.data.count ',' + 1
    ∧ (∀ piece : List Char, ∃ pre post, piece = pre ++ trimChars piece ++ post
        ∧ (∀ ch ∈ pre, isJsWhiteSpace ch = true) ∧ (∀ ch ∈ post, isJsWhiteSpace ch = true)
        ∧ (∀ ch, (trimChars piece).head? = some ch → isJsWhiteSpace ch = false)
        ∧ (∀ ch, (trimChars piece).getLast? = some ch → isJsWhiteSpace ch = false))
    ∧ (∀ c ∈ parseComments rawText,
        c ≠ "" ∧ ',' ∉ c.data
        ∧ (∀ ch, c.data.head? = some ch → isJsWhiteSpace ch = false)
        ∧ (∀ ch, c.data.getLast? = some ch → isJsWhiteSpace ch = false))
    ∧ parseComments "Nice!, Cool!, Wow!" = ["Nice!", "Cool!", "Wow!"] := by
  refine ⟨rfl, joinComma_splitComma _, splitComma_no_comma _, splitComma_length _, ?_, ?_,
    by decide⟩
  · intro piece
    obtain ⟨pre, post, h1, h2, h3⟩ := trimChars_decompose piece
    exact ⟨pre, post, h1, h2, h3, trimChars_head piece, trimChars_last piece⟩
  · intro c hc
    unfold parseComments at hc
    obtain ⟨hmem, hne⟩ := List.mem_filter.mp hc
    obtain ⟨piece, hpiece, hc2⟩ := List.mem_map.mp hmem
    subst hc2
    refine ⟨by simpa using hne, ?_, trimChars_head piece, trimChars_last piece⟩
    intro hcomma
    exact splitComma_no_comma _ piece hpiece (trimChars_subset piece ',' hcomma)

/-- C18 at the worked example: the entry `Cool!`. -/
theorem C18_parseComments_witness :
    ("Cool!" : String) ≠ "" ∧ ',' ∉ ("Cool!" : String).data
    ∧ (∀ ch, ("Cool!" : String).data.head? = some ch → isJsWhiteSpace ch = false)
    ∧ (∀ ch, ("Cool!" : String).data.getLast? = some ch → isJsWhiteSpace ch = false) :=
  (C18_parseComments "Nice!, Cool!, Wow!").2.2.2.2.2.1 "Cool!" (by decide)

/-! ## Target entry -/

/-- Stripping removes a leading at-sign. -/
theorem stripAtChars_at (rest : List Char) : stripAtChars ('@' :: rest) = rest := rfl

/-- Stripping leaves a text that does not start with an at-sign as it is. -/
theorem stripAtChars_other (cs : List Char) (h : cs.head? ≠ some '@') :
    stripAtChars cs = cs := by
  unfold stripAtChars
  split
  · exact absurd rfl h
  · rfl

/-- C19: in a session with a platform and a service selected, no target and no
draft, the text handler accepts a text as the target exactly when the text is
non-empty after trimming and stripping one leading at-sign. A rejected text
leaves the session as it is. An accepted text stores that trimmed and stripped
string as the session's target and changes nothing else (no draft, same
platform and service), and the next text is then read as the comment list when
the service type is `comment` and as the quantity otherwise. Trimming removes
a run of white space at each end of the text and leaves none at either end;
stripping removes the at-sign a trimmed text starts with, one only, and leaves
any other trimmed text as it is: the text ` @bob ` stores the target `bob`. -/
theorem C19_target_entry (db : List Pricing) (s : Session) (service : Service)
    (platform serviceType serviceId text fromId now : String)
    (hplat : s.platform = some platform) (hplat2 : platform ≠ "")
    (hty : s.serviceType = some serviceType) (hty2 : serviceType ≠ "")
    (hid : s.serviceId = some serviceId) (hid2 : serviceId ≠ "")
    (hsvc : s.service = some service)
    (htgt : truthy s.targetUsername = false) (hpend : s.pending = none) :
    (truthy (onText db s text fromId now).1.targetUsername = true ↔ stripAt (trim text) ≠ "")
    ∧ (stripAt (trim text) = "" →
        onText db s text fromId now = (s, .invalidUsername "back_service"))
    ∧ (stripAt (trim text) ≠ "" →
        onText db s text fromId now
          = ({ s with targetUsername := some (stripAt (trim text)) },
              if serviceType = "comment" then .askComments else .askQuantity)
        ∧ ∀ text2 fromId2 now2 : String,
          (serviceType = "comment" →
            onText db { s with targetUsername := some (stripAt (trim text)) } text2 fromId2 now2
              = if (parseComments text2).length = 0
                    ∨ ((parseComments text2).length : Int) < service.min_qty
                    ∨ ((parseComments text2).length : Int) > service.max_qty then
                  ({ s with targetUsername := some (stripAt (trim text)) },
                    .enterComments service.min_qty service.max_qty "back_service")
                else
                  match getPricingForService db service ((parseComments text2).length : Int) with
                  | .error e =>
                    ({ s with targetUsername := some (stripAt (trim text)) },
                      .pricingError e.message)
                  | .ok basePrice =>
                    ({ s with targetUsername := some (stripAt (trim text)),
                              pending := some (newDraft platform serviceType serviceId
                                (stripAt (trim text)) service (some (parseComments text2))
                                ((parseComments text2).length : Int) basePrice fromId2 now2) },
                      .orderSummary (newDraft platform serviceType serviceId
                        (stripAt (trim text)) service (some (parseComments text2))
                        ((parseComments text2).length : Int) basePrice fromId2 now2)))
          ∧ (serviceType ≠ "comment" →
            onText db { s with targetUsername := some (stripAt (trim text)) } text2 fromId2 now2
              = match parseInt (trim text2) with
                | none =>
                  ({ s with targetUsername := some (stripAt (trim text)) },
                    .enterNumber service.min_qty service.max_qty "back_service")
                | some quantity =>
                  if quantity < service.min_qty ∨ quantity > service.max_qty then
                    ({ s with targetUsername := some (stripAt (trim text)) },
                      .enterNumber service.min_qty service.max_qty "back_service")
                  else
                    match getPricingForService db service quantity with
                    | .error e =>
                      ({ s with targetUsername := some (stripAt (trim text)) },
                        .pricingError e.message)
                    | .ok basePrice =>
                      ({ s with targetUsername := some (stripAt (trim text)),
                                pending := some (newDraft platform serviceType serviceId
                                  (stripAt (trim text)) service none quantity basePrice
                                  fromId2 now2) },
                        .orderSummary (newDraft platform serviceType serviceId
                          (stripAt (trim text)) service none quantity basePrice
                          fromId2 now2))))
    ∧ (∃ pre post, text.data = pre ++ (trim text).data ++ post
        ∧ (∀ ch ∈ pre, isJsWhiteSpace ch = true) ∧ (∀ ch ∈ post, isJsWhiteSpace ch = true))
    ∧ (∀ ch, (trim text).data.head? = some ch → isJsWhiteSpace ch = false)
    ∧ (∀ ch, (trim text).data.getLast? = some ch → isJsWhiteSpace ch = false)
    ∧ (∀ rest, (trim text).data = '@' :: rest → (stripAt (trim text)).data = rest)
    ∧ ((trim text).data.head? ≠ some '@' → stripAt (trim text) = trim text)
    ∧ stripAt (trim " @bob ") = "bob"
    ∧ stripAt (trim "@@bob") = "@bob"
    ∧ stripAt (trim "@ bob") = " bob"
    ∧ stripAt (trim " @ ") = ""
    ∧ onText sampleDb { awaiting followers with targetUsername := none } " @bob " "7" "1"
        = (awaiting followers, .askQuantity)
    ∧ onText sampleDb { awaiting followers with targetUsername := none } " @ " "7" "1"
        = ({ awaiting followers with targetUsername := none },
            .invalidUsername "back_service") := by
  have hnone : (if truthy s.targetUsername then s.targetUsername else none) = none := by
    simp [htgt]
  have hrej : stripAt (trim text) = "" →
      onText db s text fromId now = (s, .invalidUsername "back_service") := by
    intro hu
    rw [onText_main db s text fromId now hpend,
      mainFlow_selected db s service platform serviceType serviceId text fromId now
        hplat hplat2 hty hty2 hid hid2 hsvc, hnone]
    simp only []
    rw [if_pos hu]
  have hacc : stripAt (trim text) ≠ "" →
      onText db s text fromId now
        = ({ s with targetUsername := some (stripAt (trim text)) },
            if serviceType = "comment" then .askComments else .askQuantity) := by
    intro hu
    rw [onText_main db s text fromId now hpend,
      mainFlow_selected db s service platform serviceType serviceId text fromId now
        hplat hplat2 hty hty2 hid hid2 hsvc, hnone]
    simp only []
    rw [if_neg hu]
  refine ⟨?_, hrej, fun hu => ⟨hacc hu, ?_⟩, trimChars_decompose text.data,
    trimChars_head text.data, trimChars_last text.data, ?_, ?_,
    (by decide), (by decide), (by decide), (by decide), (by decide!), (by decide!)⟩
  · constructor
    · intro h hu
      rw [hrej hu] at h
      rw [htgt] at h
      cases h
    · intro hu
      rw [hacc hu]
      simp [truthy, hu]
  · intro text2 fromId2 now2
    have hnext : onText db { s with targetUsername := some (stripAt (trim text)) }
        text2 fromId2 now2
        = mainFlow db { s with targetUsername := some (stripAt (trim text)) }
            text2 fromId2 now2 := onText_main db _ text2 fromId2 now2 hpend
    rw [hnext,
      mainFlow_selected db { s with targetUsername := some (stripAt (trim text)) } service
        platform serviceType serviceId text2 fromId2 now2 hplat hplat2 hty hty2 hid hid2 hsvc,
      target_truthy { s with targetUsername := some (stripAt (trim text)) }
        (stripAt (trim text)) rfl hu]
    simp only []
    constructor
    · intro hc
      rw [if_pos ⟨hc, by rw [hpend]; rfl⟩]
    · intro hc
      rw [if_neg (fun h => hc h.1), if_pos hpend]
  · intro rest hrest
    show stripAtChars (trim text).data = rest
    rw [hrest]
    rfl
  · intro hhead
    show String.mk (stripAtChars (trim text).data) = trim text
    rw [stripAtChars_other _ hhead]

/-- C19 at the followers service: the text ` @bob ` is accepted and `bob` is
stored as the target. -/
theorem C19_target_entry_witness :
    stripAt (trim " @bob ") = "bob"
    ∧ onText sampleDb { awaiting followers with targetUsername := none } " @bob " "7" "1"
        = ({ awaiting followers with targetUsername := some (stripAt (trim " @bob ")) },
            if ("follower" : String) = "comment" then .askComments else .askQuantity)
    ∧ (onText sampleDb { awaiting followers with targetUsername := none }
        " @bob " "7" "1").1.targetUsername = some "bob" :=
  ⟨by decide,
    ((C19_target_entry sampleDb { awaiting followers with targetUsername := none } followers
      "instagram" "follower" "s1" " @bob " "7" "1"
      rfl (by decide) rfl (by decide) rfl (by decide) rfl rfl rfl).2.2.1 (by decide)).1,
    by decide!⟩

/-! ## Retry: the claim -/

/-- More fuel does not change a result the loop has reached. -/
theorem retryLoop_fuel_succ {ε α : Type} (fn : Nat → Except ε α) (retries : Nat) :
    ∀ (fuel attempt : Nat) (out : Except ε α × Nat),
      retryLoop fn retries fuel attempt = some out →
      retryLoop fn retries (fuel + 1) attempt = some out := by
  intro fuel
  induction fuel with
  | zero => intro attempt out h; cases h
  | succ fuel ih =>
    intro attempt out h
    unfold retryLoop at h ⊢
    cases hfn : fn attempt with
    | ok value =>
      rw [hfn] at h
      exact h
    | error err =>
      rw [hfn] at h
      simp only [] at h ⊢
      split
      · rename_i hgt
        rw [if_pos hgt] at h
        exact h
      · rename_i hgt
        rw [if_neg hgt] at h
        exact ih (attempt + 1) out h

theorem retryLoop_fuel_le {ε α : Type} (fn : Nat → Except ε α) (retries : Nat)
    (fuel fuel2 attempt : Nat) (out : Except ε α × Nat) (hle : fuel ≤ fuel2)
    (h : retryLoop fn retries fuel attempt = some out) :
    retryLoop fn retries fuel2 attempt = some out := by
  induction hle with
  | refl => exact h
  | step _ ih => exact retryLoop_fuel_succ fn retries _ attempt out ih

/-- The loop entered with `attempt` failures counted ends within
`retries + 1 - attempt` iterations. -/
theorem retryLoop_result {ε α : Type} (fn : Nat → Except ε α) (retries : Nat) :
    ∀ (fuel attempt : Nat), attempt ≤ retries → retries + 1 ≤ fuel + attempt →
      ∃ result calls, retryLoop fn retries fuel attempt = some (result, calls)
        ∧ attempt < calls ∧ calls ≤ retries + 1
        ∧ fn (calls - 1) = result
        ∧ (∀ i, attempt ≤ i → i + 1 < calls → ∃ e, fn i = .error e)
        ∧ (∀ e, result = .error e → calls = retries + 1) := by
  intro fuel
  induction fuel with
  | zero => intro attempt h1 h2; omega
  | succ fuel ih =>
    intro attempt h1 h2
    unfold retryLoop
    cases hfn : fn attempt with
    | ok value =>
      refine ⟨.ok value, attempt + 1, rfl, by omega, by omega, ?_, ?_, ?_⟩
      · simpa using hfn
      · intro i hi1 hi2; omega
      · intro e he; cases he
    | error err =>
      simp only []
      split
      · rename_i hgt
        refine ⟨.error err, attempt + 1, rfl, by omega, by omega, ?_, ?_, ?_⟩
        · simpa using hfn
        · intro i hi1 hi2; omega
        · intro e _; omega
      · rename_i hgt
        obtain ⟨result, calls, hrun, hlt, hle, hlast, hfail, herr⟩ :=
          ih (attempt + 1) (by omega) (by omega)
        refine ⟨result, calls, hrun, by omega, hle, hlast, ?_, herr⟩
        intro i hi1 hi2
        rcases Nat.eq_or_lt_of_le hi1 with heq | hlt2
        · exact ⟨err, by rw [← heq]; exact hfn⟩
        · exact hfail i (by omega) hi2

/-- C20: `retryWithBackoff` with retry budget `r` ends: `r + 1` iterations of
its loop, or any larger number, give one and the same outcome, reached after
`calls` invocations of `fn` with `1 ≤ calls ≤ r + 1`. The outcome is that of
the last invocation made, every earlier invocation failed, so a returned value
is the result of the first invocation that succeeds and `fn` is not invoked
after it; the call fails only after `r + 1` invocations, with the error of the
last one, and it does fail when the first `r + 1` invocations all fail. -/
theorem C20_retry_bounded {ε α : Type} (fn : Nat → Except ε α) (r : Nat) :
    ∃ (result : Except ε α) (calls : Nat),
      (∀ fuel, r + 1 ≤ fuel → retryWithBackoff fn r fuel = some (result, calls))
      ∧ 1 ≤ calls ∧ calls ≤ r + 1
      ∧ fn (calls - 1) = result
      ∧ (∀ i, i + 1 < calls → ∃ e, fn i = .error e)
      ∧ (∀ e, result = .error e → calls = r + 1 ∧ fn r = .error e)
      ∧ ((∀ i, i ≤ r → ∃ e, fn i = .error e) → result = fn r ∧ calls = r + 1)
      ∧ retryWithBackoff flaky 3 4 = some (.ok 42, 3)
      ∧ retryWithBackoff flaky 1 2 = some (.error "reset", 2) := by
  obtain ⟨result, calls, hrun, hlt, hle, hlast, hfail, herr⟩ :=
    retryLoop_result fn r (r + 1) 0 (Nat.zero_le r) (by omega)
  refine ⟨result, calls, ?_, by omega, hle, hlast, ?_, ?_, ?_, by decide, by decide⟩
  · intro fuel hfuel
    exact retryLoop_fuel_le fn r (r + 1) fuel 0 _ hfuel hrun
  · intro i hi
    exact hfail i (Nat.zero_le i) hi
  · intro e he
    have hc := herr e he
    refine ⟨hc, ?_⟩
    rw [hc] at hlast
    rw [← he, ← hlast]
    simp
  · intro hall
    have hc : calls = r + 1 := by
      cases hres : result with
      | error e => exact herr e hres
      | ok v =>
        obtain ⟨e, he⟩ := hall (calls - 1) (by omega)
        rw [hlast, hres] at he
        cases he
    refine ⟨?_, hc⟩
    rw [← hlast, hc]
    simp

/-! ## The edit marker -/

/-- C21, at two reachable sessions. After `/start` and the `edit_quantity`
action the quantity is marked as being edited although no draft is present.
And after an order whose quantity edit is left by the Back button to the
service list, the marker is still set when the initial-entry flow builds the
draft of the next order: the first text sent after that draft, `500`, is read
as an edit of it (quantity 500, base price 15, total 15.5), whereas the same
session without the marker ignores that text. -/
theorem C21_stale_edit_marker :
    (run sampleServices sampleDb emptySession [.start, .editQuantity]).editField
        = some "quantity"
    ∧ (run sampleServices sampleDb emptySession [.start, .editQuantity]).pending = none
    ∧ (run sampleServices sampleDb emptySession
          (followersOrder ++ [.editQuantity, .backService])).pending = none
    ∧ (run sampleServices sampleDb emptySession
          (followersOrder ++ [.editQuantity, .backService])).editField = some "quantity"
    ∧ run sampleServices sampleDb emptySession reorderAfterEdit
        = editing followers
            (newDraft "instagram" "follower" "s1" "bob" followers none 250 9 "7" "4") "quantity"
    ∧ onText sampleDb (run sampleServices sampleDb emptySession reorderAfterEdit) "500" "7" "5"
        = ({ awaiting followers with
              pending := some { newDraft "instagram" "follower" "s1" "bob" followers none 250 9
                                  "7" "4" with
                                quantity := 500, basePrice := 15, totalPrice := 31 / 2 } },
            .orderSummary { newDraft "instagram" "follower" "s1" "bob" followers none 250 9
                              "7" "4" with
                            quantity := 500, basePrice := 15, totalPrice := 31 / 2 })
    ∧ onText sampleDb
          { run sampleServices sampleDb emptySession reorderAfterEdit with editField := none }
          "500" "7" "5"
        = ({ run sampleServices sampleDb emptySession reorderAfterEdit with editField := none },
            .silent) := by
  decide!

end Telegram
